import Mathlib

/-!
# Weather card component (`src/components/weathercard.jsx`)

A shallow embedding of the logic of the `Weather` component: the grouping of
the forecast by calendar day (`groupedForecast`), the chart series of the
selected day, and the `getWeather` fetch with the state it writes.

JavaScript strings are sequences of UTF-16 code units, numbers are IEEE 754
binary64 values with correctly rounded division, and an ordinary object is the
list of its own properties in creation order together with the properties it
inherits from `Object.prototype`. A call of `getWeather` is the sequence of its
actions (state setters, toasts, awaited requests) for the answers the provider
gives; the answers have the shape of the endpoints, except that the forecast
body may lack its `list` and the current-conditions body its `visibility`.
The component is a state machine: a call runs up to its next `await` and is
then suspended, and other handlers and other calls run before its request is
answered.
-/

namespace WeatherCard

/-! ## Strings -/

/-- A JavaScript string: its UTF-16 code units. -/
abbrev JSString := List Nat

/-- A JavaScript number, an IEEE 754 binary64 value: `NaN`, an infinity, or a
finite value given by its sign bit and its absolute value (negative zero is
`finite true 0`). -/
inductive JSNumber where
  | nan
  | infinity (negative : Bool)
  | finite (negative : Bool) (magnitude : ℚ)
  deriving DecidableEq

instance (n : Nat) : OfNat JSNumber n := ⟨.finite false n⟩

/-- The integer nearest to `n / d`, the even one of two that are equally near. -/
def roundHalfEven (n d : Nat) : Nat :=
  if 2 * (n % d) < d then n / d
  else if d < 2 * (n % d) then n / d + 1
  else if (n / d) % 2 = 0 then n / d else n / d + 1

/-- The number of times `n` can be halved before it is below 2. -/
def log2Fuel : Nat → Nat → Nat
  | 0, _ => 0
  | fuel + 1, n => if n < 2 then 0 else log2Fuel fuel (n / 2) + 1

/-- The exponent `e` with `2 ^ e ≤ n / d < 2 ^ (e + 1)`, for positive `n` and `d`. -/
def floorLog2 (n d : Nat) : Int :=
  let e0 : Int := (log2Fuel n n : Int) - (log2Fuel d d : Int)
  if (if 0 ≤ e0 then 2 ^ e0.toNat * d ≤ n else d ≤ n * 2 ^ (-e0).toNat) then e0 else e0 - 1

/-- The binary64 value nearest to `n / d`, ties to even: the quotient is rounded
to a multiple of the spacing `2 ^ k` of the binary64 values around it, 53
significant bits and no spacing below `2 ^ (-1074)`; `none` when the rounded
value is beyond the largest finite one. -/
def roundBinary64 (n d : Nat) : Option ℚ :=
  if n = 0 then some 0
  else
    let k : Int := max (floorLog2 n d) (-1022) - 52
    if 0 ≤ k then
      let v := roundHalfEven n (d * 2 ^ k.toNat) * 2 ^ k.toNat
      if 2 ^ 1024 ≤ v then none else some (mkRat v 1)
    else some (mkRat (roundHalfEven (n * 2 ^ (-k).toNat) d) (2 ^ (-k).toNat))

/-- The quotient `x / y` of two numbers. -/
def jsDivide : JSNumber → JSNumber → JSNumber
  | .nan, _ => .nan
  | _, .nan => .nan
  | .infinity _, .infinity _ => .nan
  | .infinity a, .finite b _ => .infinity (xor a b)
  | .finite a _, .infinity b => .finite (xor a b) 0
  | .finite a x, .finite b y =>
    if y.num = 0 then (if x.num = 0 then .nan else .infinity (xor a b))
    else
      match roundBinary64 (x.num.natAbs * y.den) (x.den * y.num.natAbs) with
      | some r => .finite (xor a b) r
      | none => .infinity (xor a b)

/-- The number an arithmetic operator makes of a member that is a number or is
missing (`undefined`, here `none`, becomes `NaN`). -/
def toNumber : Option JSNumber → JSNumber
  | some x => x
  | none => .nan

/-- UTF-16 code units of one Unicode scalar value. -/
def utf16Char (c : Char) : List Nat :=
  if c.toNat < 65536 then [c.toNat]
  else [55296 + (c.toNat - 65536) / 1024, 56320 + (c.toNat - 65536) % 1024]

/-- The JavaScript string written as a literal. -/
def utf16 (s : String) : JSString :=
  s.data.flatMap utf16Char

/-- The code unit of the space character, the separator of `split(' ')`. -/
def space : Nat := 32

/-- The result of `s.split(sep)` for a separator of one code unit: the pieces
between the occurrences of the separator, never an empty array. -/
def split (sep : Nat) : JSString → List JSString
  | [] => [[]]
  | c :: cs =>
    if c = sep then [] :: split sep cs
    else
      match split sep cs with
      | [] => [[c]]
      | p :: ps => (c :: p) :: ps

/-- The result of `s.slice(a, b)` for non-negative `a` and `b`: the code units
at positions `a` to `b - 1`, as far as the string has them. -/
def slice (s : JSString) (a b : Nat) : JSString :=
  (s.drop a).take (b - a)

/-- White space and line terminators, the code units `trim` removes. -/
def isWhiteSpace (c : Nat) : Bool :=
  c = 9 || c = 10 || c = 11 || c = 12 || c = 13 || c = 32 || c = 160 ||
  c = 5760 || (8192 ≤ c && c ≤ 8202) || c = 8232 || c = 8233 || c = 8239 ||
  c = 8287 || c = 12288 || c = 65279

/-- The result of `s.trim()`: the string without its leading and trailing white
space. -/
def trim (s : JSString) : JSString :=
  ((s.dropWhile isWhiteSpace).reverse.dropWhile isWhiteSpace).reverse

/-! ## Forecast entries -/

/-- The `main` object of a sample. -/
structure MainData where
  temp : JSNumber
  humidity : JSNumber
  pressure : JSNumber
  deriving DecidableEq

/-- One element of a `weather` array. -/
structure WeatherInfo where
  description : JSString
  icon : JSString
  main : JSString
  deriving DecidableEq

/-- The `wind` object of a sample. -/
structure WindData where
  speed : JSNumber
  deriving DecidableEq

/-- The `clouds` object of a sample. -/
structure CloudData where
  all : JSNumber
  deriving DecidableEq

/-- One element of the forecast list. -/
structure ForecastEntry where
  dt_txt : JSString
  main : MainData
  weather : List WeatherInfo
  wind : WindData
  clouds : CloudData
  deriving DecidableEq

/-! ## Ordinary objects -/

/-- An ordinary object created by `{}`: its own properties in the order of
their creation. Its prototype is `Object.prototype`. -/
structure JSObject (α : Type) where
  props : List (JSString × α)
  deriving DecidableEq

/-- The names of the properties every object inherits from `Object.prototype`. -/
def objectPrototypeKeys : List JSString :=
  [utf16 "constructor", utf16 "__defineGetter__", utf16 "__defineSetter__",
   utf16 "hasOwnProperty", utf16 "__lookupGetter__", utf16 "__lookupSetter__",
   utf16 "isPrototypeOf", utf16 "propertyIsEnumerable", utf16 "toString",
   utf16 "valueOf", utf16 "__proto__", utf16 "toLocaleString"]

/-- What reading `obj[key]` gives. -/
inductive Lookup (α : Type) where
  | own (value : α)
  | inherited
  | undefined

/-- The result of `obj[key]`: the own property, else the one found on
`Object.prototype`, else `undefined`. -/
def JSObject.get {α : Type} (o : JSObject α) (key : JSString) : Lookup α :=
  match o.props.lookup key with
  | some v => .own v
  | none => if key ∈ objectPrototypeKeys then .inherited else .undefined

/-- The effect of `obj[key] = value` on a key that is not inherited: the own
property is overwritten in place, or created after the existing ones. -/
def JSObject.set {α : Type} (o : JSObject α) (key : JSString) (value : α) : JSObject α :=
  if (o.props.lookup key).isSome then
    ⟨o.props.map fun p => if p.1 = key then (p.1, value) else p⟩
  else
    ⟨o.props ++ [(key, value)]⟩

/-- Truthiness of a looked-up value whose own values are arrays: arrays and the
members of `Object.prototype` are truthy, `undefined` is falsy. -/
def Lookup.truthy {α : Type} : Lookup α → Bool
  | .own _ => true
  | .inherited => true
  | .undefined => false

/-- Is the code unit a decimal digit. -/
def isDigit (c : Nat) : Bool := 48 ≤ c && c ≤ 57

/-- The number a string of decimal digits denotes. -/
def digitsValue (s : JSString) : Nat :=
  s.foldl (fun n c => 10 * n + (c - 48)) 0

/-- The array index a property key denotes, if any: the canonical decimal
string of an integer from 0 to 2^32 - 2. -/
def arrayIndex? (key : JSString) : Option Nat :=
  if key ≠ [] ∧ key.all isDigit = true ∧ (key = [48] ∨ key.head? ≠ some 48)
      ∧ digitsValue key < 2 ^ 32 - 1 then
    some (digitsValue key)
  else none

/-- Order of two properties whose keys are array indices. -/
def indexLE {α : Type} (p q : JSString × α) : Prop :=
  (arrayIndex? p.1).getD 0 ≤ (arrayIndex? q.1).getD 0

instance {α : Type} : DecidableRel (@indexLE α) :=
  fun p q => inferInstanceAs (Decidable ((arrayIndex? p.1).getD 0 ≤ (arrayIndex? q.1).getD 0))

/-- The result of `Object.entries(obj)`: the properties whose keys are array
indices, in ascending numeric order, then the other properties in creation
order. -/
def JSObject.entries {α : Type} (o : JSObject α) : List (JSString × α) :=
  (o.props.filter fun p => (arrayIndex? p.1).isSome).insertionSort indexLE
    ++ o.props.filter fun p => !(arrayIndex? p.1).isSome

/-! ## Grouping the forecast by day -/

/-- An exception thrown by the code. -/
inductive JSError where
  | typeError
  | error (message : JSString)
  deriving DecidableEq

/-- The `date` of the reducer: `item.dt_txt.split(' ')[0]`. -/
def dayKey (item : ForecastEntry) : JSString :=
  (split space item.dt_txt).headD []

/-- One call of the reducer of `groupedForecast`:
`if (!acc[date]) acc[date] = []; acc[date].push(item); return acc;`.
`push` exists on arrays only, so the call on an inherited member throws. -/
def groupStep (acc : JSObject (List ForecastEntry)) (item : ForecastEntry) :
    Except JSError (JSObject (List ForecastEntry)) :=
  let date := dayKey item
  let acc1 := if !(acc.get date).truthy then acc.set date [] else acc
  match acc1.get date with
  | .own arr => .ok (acc1.set date (arr ++ [item]))
  | _ => .error .typeError

/-- The reducer run over the rest of the list from an accumulator. -/
def groupFrom (acc : JSObject (List ForecastEntry)) :
    List ForecastEntry → Except JSError (JSObject (List ForecastEntry))
  | [] => .ok acc
  | item :: rest =>
    match groupStep acc item with
    | .ok acc1 => groupFrom acc1 rest
    | .error e => .error e

/-- The value of `groupedForecast`: `forecast.reduce(reducer, {})`. -/
def groupedForecast (forecast : List ForecastEntry) :
    Except JSError (JSObject (List ForecastEntry)) :=
  groupFrom ⟨[]⟩ forecast

/-! ## The chart of the selected day -/

/-- One point of the data of `LineChart`. -/
structure ChartPoint where
  time : JSString
  temp : JSNumber
  humidity : JSNumber
  pressure : JSNumber
  wind_speed : JSNumber
  cloudiness : JSNumber
  deriving DecidableEq

/-- The callback of `selectedDayData.map`. -/
def chartPoint (entry : ForecastEntry) : ChartPoint where
  time := slice entry.dt_txt 11 16
  temp := entry.main.temp
  humidity := entry.main.humidity
  pressure := entry.main.pressure
  wind_speed := entry.wind.speed
  cloudiness := entry.clouds.all

/-- The `data` of `LineChart`: `selectedDayData.map(callback)`. -/
def toChartSeries (selectedDayData : List ForecastEntry) : List ChartPoint :=
  selectedDayData.map chartPoint

/-! ## State of the component -/

/-- The object `current` that `getWeather` builds. -/
structure CurrentWeather where
  name : JSString
  country : JSString
  temp : JSNumber
  humidity : JSNumber
  weather : List WeatherInfo
  wind_speed : JSNumber
  pressure : JSNumber
  cloudiness : JSNumber
  visibility : JSNumber
  deriving DecidableEq

/-- What `forecastRes.data.list`, and with it the `forecast` state, can hold: an
array of entries, or a value that is not an array (`undefined` when the body
has no `list`). -/
inductive ForecastValue where
  | array (entries : List ForecastEntry)
  | notArray
  deriving DecidableEq

/-- The values of the `useState` hooks of `Weather`; `none` is `null`. -/
structure State where
  location : JSString
  currentWeather : Option CurrentWeather
  forecast : ForecastValue
  error : JSString
  loading : Bool
  darkMode : Bool
  selectedDayData : Option (List ForecastEntry)
  deriving DecidableEq

/-- The state of a freshly mounted component. -/
def initialState : State where
  location := []
  currentWeather := none
  forecast := .array []
  error := []
  loading := false
  darkMode := false
  selectedDayData := none

/-! ## The weather provider -/

/-- One match of the geocoding endpoint. -/
structure GeoMatch where
  lat : JSNumber
  lon : JSNumber
  name : JSString
  country : JSString
  deriving DecidableEq

/-- The body of the answer of the current-conditions endpoint; `visibility` is
`none` when the body has no such member. -/
structure CurrentPayload where
  main : MainData
  weather : List WeatherInfo
  wind : WindData
  clouds : CloudData
  visibility : Option JSNumber
  deriving DecidableEq

/-- The body of the answer of the forecast endpoint: its member `list`. -/
structure ForecastPayload where
  list : ForecastValue
  deriving DecidableEq

/-- How an `await axios.get(url)` ends. `rejected`: the promise rejects (no
answer, or a status outside 2xx). `malformed`: an answer with a body that the
code cannot read, `data` or a member that `getWeather` dereferences (`data[0]`,
`data.main`, `data.wind`, `data.clouds`) being `null` or `undefined`, so that
a read throws a TypeError. `ok`: an answer with a body that is read without an
exception. -/
inductive Reply (α : Type) where
  | rejected
  | malformed
  | ok (data : α)
  deriving DecidableEq

/-- The request gave no body that can be read. -/
def Reply.failed {α : Type} : Reply α → Bool
  | .rejected => true
  | .malformed => true
  | .ok _ => false

/-- The three endpoints, as the answers they give. -/
structure Provider where
  geocode : JSString → Reply (List GeoMatch)
  current : JSNumber → JSNumber → Reply CurrentPayload
  forecast : JSNumber → JSNumber → Reply ForecastPayload

/-- A request `getWeather` sends, by endpoint and parameters. -/
inductive Request where
  | geocode (q : JSString)
  | current (lat lon : JSNumber)
  | forecast (lat lon : JSNumber)
  deriving DecidableEq

/-- A call of `toast`. -/
inductive Toast where
  | error (message : JSString)
  | info (message : JSString)
  | success (message : JSString)
  deriving DecidableEq

/-! ## Running `getWeather` -/

/-- What `getWeather` does, one action at a time: the state setters it calls,
the toasts, and the requests it awaits. -/
inductive Op where
  | setError (message : JSString)
  | setLoading (value : Bool)
  | setCurrentWeather (value : Option CurrentWeather)
  | setForecast (value : ForecastValue)
  | toast (t : Toast)
  | await (r : Request)
  deriving DecidableEq

/-- The object `current` built from the first geocode match and the body of the
current-conditions answer. -/
def buildCurrent (first : GeoMatch) (data : CurrentPayload) : CurrentWeather where
  name := first.name
  country := first.country
  temp := data.main.temp
  humidity := data.main.humidity
  weather := data.weather
  wind_speed := data.wind.speed
  pressure := data.main.pressure
  cloudiness := data.clouds.all
  visibility := jsDivide (toNumber data.visibility) 1000

/-- The actions of the `try` block up to its end or to the first exception, and
whether it ran to its end. -/
def tryBlock (P : Provider) (sanitizedLocation : JSString) : List Op × Bool :=
  let start : List Op :=
    [.setLoading true, .toast (.info (utf16 "Fetching weather data...")),
      .await (.geocode sanitizedLocation)]
  match P.geocode sanitizedLocation with
  | .ok (first :: _) =>
    let second : List Op := start ++ [.await (.current first.lat first.lon)]
    match P.current first.lat first.lon with
    | .ok data =>
      let third : List Op := second ++
        [.setCurrentWeather (some (buildCurrent first data)),
          .await (.forecast first.lat first.lon)]
      match P.forecast first.lat first.lon with
      | .ok fdata =>
        (third ++
          [.setForecast fdata.list, .setError [],
            .toast (.success (utf16 "Weather data for " ++ first.name ++ utf16 ", "
              ++ first.country ++ utf16 " loaded successfully!"))], true)
      | _ => (third, false)
    | _ => (second, false)
  | _ => (start, false)

/-- The actions of the `catch` block. -/
def catchBlock : List Op :=
  [.setError (utf16 "Location not found or error fetching data"),
    .setCurrentWeather none, .setForecast (.array []),
    .toast (.error (utf16 "Failed to fetch weather data!"))]

/-- The actions of the `finally` block. -/
def finallyBlock : List Op := [.setLoading false]

/-- The actions of one call of `getWeather`, in order, for the `location` the
call reads and the answers the provider gives. -/
def getWeatherOps (P : Provider) (location : JSString) : List Op :=
  let sanitizedLocation := trim location
  if sanitizedLocation = [] then
    [.setError (utf16 "Please enter a location"),
      .toast (.error (utf16 "Enter a valid city name!"))]
  else
    match tryBlock P sanitizedLocation with
    | (ops, true) => ops ++ finallyBlock
    | (ops, false) => ops ++ catchBlock ++ finallyBlock

/-- The effect of one action on the state. -/
def applyOp (s : State) : Op → State
  | .setError message => { s with error := message }
  | .setLoading value => { s with loading := value }
  | .setCurrentWeather value => { s with currentWeather := value }
  | .setForecast value => { s with forecast := value }
  | .toast _ => s
  | .await _ => s

/-- The state after a sequence of actions applied one after the other, with
nothing in between. -/
def runOps (s : State) (ops : List Op) : State :=
  ops.foldl applyOp s

/-- The state after each action of a sequence, in order: every state the
component passes through during the run, whether or not it is rendered. -/
def trace (s : State) : List Op → List State
  | [] => []
  | o :: ops => applyOp s o :: trace (applyOp s o) ops

/-- The requests of a sequence of actions, in order. -/
def requests : List Op → List Request
  | [] => []
  | .await r :: ops => r :: requests ops
  | _ :: ops => requests ops

/-- The states in which a run waits for an answer: each request with the state
at its `await`. The handler has returned to the event loop there, so this is
the state the component renders while the request is pending. -/
def suspensions (s : State) : List Op → List (Request × State)
  | [] => []
  | .await r :: ops => (r, s) :: suspensions s ops
  | o :: ops => suspensions (applyOp s o) ops

/-! ## The user's actions -/

/-- The handler of the text input: `setLocation(e.target.value)`. -/
def setLocation (s : State) (value : JSString) : State :=
  { s with location := value }

/-- The handler of the mode button: `setDarkMode(!darkMode)`. -/
def toggleDarkMode (s : State) : State :=
  { s with darkMode := !s.darkMode }

/-- The day cards of a render: none unless `forecast.length > 0`, else one for
each element of `Object.entries(groupedForecast)`. A render in which
`groupedForecast` throws, as `forecast.reduce` does on a value that is not an
array, shows no card. -/
def dayCards (s : State) : List (JSString × List ForecastEntry) :=
  match s.forecast with
  | .array forecast =>
    match groupedForecast forecast with
    | .ok grouped => if forecast.length > 0 then grouped.entries else []
    | .error _ => []
  | .notArray => []

/-- The click handler of a day card: `setSelectedDayData(data)`. -/
def selectDay (s : State) (data : List ForecastEntry) : State :=
  { s with selectedDayData := some data }

/-- The handler of the close button: `setSelectedDayData(null)`. -/
def closeDetail (s : State) : State :=
  { s with selectedDayData := none }

/-- The states the component can be in. A call of `getWeather` is suspended at
its requests, where other handlers may run, so each of its actions is a step
of its own. -/
inductive Reachable : State → Prop where
  | init : Reachable initialState
  | setLocation (s : State) (value : JSString) : Reachable s → Reachable (setLocation s value)
  | toggleDarkMode (s : State) : Reachable s → Reachable (toggleDarkMode s)
  | write (s : State) (P : Provider) (location : JSString) (o : Op) :
      Reachable s → o ∈ getWeatherOps P location → Reachable (applyOp s o)
  | selectDay (s : State) (d : JSString) (g : List ForecastEntry) :
      Reachable s → (d, g) ∈ dayCards s → Reachable (selectDay s g)
  | closeDetail (s : State) : Reachable s → Reachable (closeDetail s)

/-! ## The render -/

/-- The first element of a group has an empty `weather` array, so that
`data[0].weather[0].icon` throws. -/
def cardThrows (card : JSString × List ForecastEntry) : Bool :=
  match card.2 with
  | [] => true
  | first :: _ => first.weather.isEmpty

/-- The outcome of rendering a state: `ok`, or the exception of the first
expression that throws. `forecast.reduce` throws on a value that is not an
array and where the reducer throws (line 130), `weather[0].description` on an
empty `weather` of the current weather (line 212), `data[0].weather[0].icon`
on a card whose first entry has an empty `weather` (line 295), and
`selectedDayData[0].dt_txt` on an empty selection (line 320). A render that
throws unmounts the component. -/
def render (s : State) : Except JSError Unit :=
  match s.forecast with
  | .notArray => .error .typeError
  | .array forecast =>
    match groupedForecast forecast with
    | .error e => .error e
    | .ok grouped =>
      if (match s.currentWeather with
          | some current => current.weather.isEmpty
          | none => false) then .error .typeError
      else if decide (forecast.length > 0) && grouped.entries.any cardThrows then
        .error .typeError
      else if s.selectedDayData = some [] then .error .typeError
      else .ok ()

/-! ## The component as a state machine -/

/-- The component between two events: the values of its hooks, and the calls of
`getWeather` that are suspended at an `await`, the latest call first, each
with the actions that follow the answer to its request. -/
structure Component where
  state : State
  pending : List (List Op)
  deriving DecidableEq

/-- The component when it is mounted. -/
def initialComponent : Component where
  state := initialState
  pending := []

/-- Actions run from a state up to the next `await`: the state reached, and the
actions that remain after that `await`, `none` when the actions ran to their
end. -/
def advance (s : State) : List Op → State × Option (List Op)
  | [] => (s, none)
  | .await _ :: rest => (s, some rest)
  | o :: rest => advance (applyOp s o) rest

/-- The component once a call has run up to its next `await`, where it is
suspended in front of the other pending calls, or to its end. -/
def suspend (pending : List (List Op)) : State × Option (List Op) → Component
  | (s, some rest) => ⟨s, rest :: pending⟩
  | (s, none) => ⟨s, pending⟩

/-- One call of `getWeather`: its actions run up to its first `await`, where
the call is suspended; a call without request ends at once. The provider gives
the answers the requests of this call will receive. -/
def getWeather (P : Provider) (c : Component) : Component :=
  suspend c.pending (advance c.state (getWeatherOps P c.state.location))

/-- The request of the suspended call at position `i` is answered: the call
runs on to its next `await` or to its end. -/
def answer (i : Nat) (c : Component) : Option Component :=
  match c.pending[i]? with
  | none => none
  | some ops =>
    match advance c.state ops with
    | (s, some rest) => some ⟨s, c.pending.set i rest⟩
    | (s, none) => some ⟨s, c.pending.eraseIdx i⟩

/-- The suspended call at position `i` is answered `n` times in a row. -/
def answerTimes (i : Nat) : Nat → Component → Option Component
  | 0, c => some c
  | n + 1, c => (answer i c).bind (answerTimes i n)

/-- What can happen to the component: the user types, presses Enter in the
input (line 165: `getWeather()` with no condition), clicks the search button
(line 169: disabled while `loading`), clicks the mode button, a pending request
is answered, the user clicks or presses Enter on a day card, or clicks the
close button of the detail. -/
inductive Event where
  | change (value : JSString)
  | enter (P : Provider)
  | search (P : Provider)
  | toggle
  | answer (i : Nat)
  | select (index : Nat)
  | close

/-- The component after an event, `none` when the event cannot happen: the
handlers of the user exist only in a component whose render ran through, the
search button only while `loading` is false, a day card only where the render
shows it, the close button only with a selected day. The answer to a pending
request runs the rest of its call in any case. -/
def step (c : Component) : Event → Option Component
  | .answer i => answer i c
  | e =>
    match render c.state with
    | .error _ => none
    | .ok _ =>
      match e with
      | .change value => some { c with state := setLocation c.state value }
      | .enter P => some (getWeather P c)
      | .search P => if c.state.loading then none else some (getWeather P c)
      | .toggle => some { c with state := toggleDarkMode c.state }
      | .answer i => answer i c
      | .select index =>
        match (dayCards c.state)[index]? with
        | some card => some { c with state := selectDay c.state card.2 }
        | none => none
      | .close =>
        if c.state.selectedDayData.isSome then
          some { c with state := closeDetail c.state }
        else none

/-- The component after a sequence of events. -/
def exec (c : Component) : List Event → Option Component
  | [] => some c
  | e :: es => (step c e).bind fun c1 => exec c1 es

/-! ## What the code is compared with -/

/-- The string has the form "YYYY-MM-DD HH:MM:SS" of a `dt_txt` of the provider:
digits, with hyphens, a space and colons at their places. -/
def isTimestamp (s : JSString) : Bool :=
  match s with
  | [y1, y2, y3, y4, h1, mo1, mo2, h2, d1, d2, sp, ho1, ho2, c1, mi1, mi2, c2, s1, s2] =>
    [y1, y2, y3, y4, mo1, mo2, d1, d2, ho1, ho2, mi1, mi2, s1, s2].all isDigit
      && h1 = 45 && h2 = 45 && sp = 32 && c1 = 58 && c2 = 58
  | _ => false

/-- The part of a string before its first space. -/
def datePart (s : JSString) : JSString :=
  s.takeWhile fun c => c ≠ space

/-- The distinct elements of a list, each at the place of its first occurrence. -/
def firstOccurrences {κ : Type} [DecidableEq κ] : List κ → List κ
  | [] => []
  | k :: ks => k :: (firstOccurrences ks).filter fun j => j ≠ k

/-- The groups a stable partition by day has: one per day in order of first
occurrence, holding the entries of that day in their original order. -/
def groupsOf (xs : List ForecastEntry) : List (JSString × List ForecastEntry) :=
  (firstOccurrences (xs.map dayKey)).map fun d => (d, xs.filter fun x => dayKey x = d)

/-- The mapping `m` is the stable partition of `xs` by day: its keys are the
days that occur, each once, no group is empty, the group of a day holds the
entries of that day in their original order, and the groups together hold
every entry exactly once. -/
def IsStablePartition (xs : List ForecastEntry) (m : JSObject (List ForecastEntry)) : Prop :=
  (∀ d, d ∈ m.entries.map Prod.fst ↔ ∃ x ∈ xs, datePart x.dt_txt = d) ∧
  (m.entries.map Prod.fst).Nodup ∧
  (∀ d g, (d, g) ∈ m.entries →
    g ≠ [] ∧ g = xs.filter fun x => datePart x.dt_txt = d) ∧
  (m.entries.map Prod.snd).flatten.Perm xs

/-- The fetch for the query `q` fails at one of its steps: the geocode request
fails or finds no match, or the current-conditions request fails, or the
forecast request fails. -/
def FetchFails (P : Provider) (q : JSString) : Prop :=
  (P.geocode q).failed = true ∨ P.geocode q = .ok [] ∨
  ∃ first rest, P.geocode q = .ok (first :: rest) ∧
    ((P.current first.lat first.lon).failed = true ∨
      ∃ data, P.current first.lat first.lon = .ok data ∧
        (P.forecast first.lat first.lon).failed = true)

/-! ## Sample data -/

/-- A forecast entry with the given `dt_txt` and fixed measurements. -/
def sampleEntry (dt_txt : String) : ForecastEntry where
  dt_txt := utf16 dt_txt
  main := ⟨18, 60, 1013⟩
  weather := [⟨utf16 "clear sky", utf16 "01d", utf16 "Clear"⟩]
  wind := ⟨3⟩
  clouds := ⟨0⟩

/-- Three samples over two days. -/
def sampleForecast : List ForecastEntry :=
  [sampleEntry "2024-01-15 21:00:00", sampleEntry "2024-01-16 00:00:00",
    sampleEntry "2024-01-15 18:00:00"]

/-- The first geocode match of the sample provider. -/
def paris : GeoMatch where
  lat := 49
  lon := 2
  name := utf16 "Paris"
  country := utf16 "FR"

/-- The current conditions of the sample provider: visibility 10000 m. -/
def parisConditions : CurrentPayload where
  main := ⟨18, 60, 1013⟩
  weather := [⟨utf16 "clear sky", utf16 "01d", utf16 "Clear"⟩]
  wind := ⟨3⟩
  clouds := ⟨0⟩
  visibility := some 10000

/-- The binary64 value nearest to 0.07. -/
def sevenHundredths : JSNumber :=
  .finite false (mkRat 5044031582654956 (2 ^ 56))

/-- A provider that knows Paris only and answers every request. -/
def sampleProvider : Provider where
  geocode := fun q => if q = utf16 "Paris" then .ok [paris] else .ok []
  current := fun _ _ => .ok parisConditions
  forecast := fun _ _ => .ok ⟨.array sampleForecast⟩

/-- A provider that knows Paris and whose forecast endpoint is down. -/
def noForecastProvider : Provider where
  geocode := fun q => if q = utf16 "Paris" then .ok [paris] else .ok []
  current := fun _ _ => .ok parisConditions
  forecast := fun _ _ => .rejected

/-- A provider that knows Paris and whose forecast endpoint answers with a body
that has no `list`. -/
def noListProvider : Provider where
  geocode := fun q => if q = utf16 "Paris" then .ok [paris] else .ok []
  current := fun _ _ => .ok parisConditions
  forecast := fun _ _ => .ok ⟨.notArray⟩

/-- The initial state after the user has typed the given text. -/
def typed (text : String) : State :=
  setLocation initialState (utf16 text)

/-- The user types "Paris" and presses Enter; the geocode and current-conditions
requests are answered as by `sampleProvider`, the forecast request is pending. -/
def parisPendingEvents : List Event :=
  [.change (utf16 "Paris"), .enter sampleProvider, .answer 0, .answer 0]

/-- The call for "Paris" is overlapped by a call for "Qwzxy123": while the
forecast request for Paris is pending the user types "Qwzxy123" and presses
Enter, the geocode request of the new call is answered with no match, and then
the forecast request of the call for Paris is answered. -/
def overlapEvents : List Event :=
  parisPendingEvents ++
    [.change (utf16 "Qwzxy123"), .enter sampleProvider, .answer 0, .answer 0]

/-- The user types "Paris", presses Enter and types "Qwzxy123" before any
answer. -/
def secondQueryEvents : List Event :=
  [.change (utf16 "Paris"), .enter sampleProvider, .change (utf16 "Qwzxy123")]

/-- The user types "Paris" and presses Enter, then types "Qwzxy123" and presses
Enter again before any answer; the geocode request of the second call is
answered first, with no match. -/
def secondCallEndsFirstEvents : List Event :=
  [.change (utf16 "Paris"), .enter sampleProvider, .change (utf16 "Qwzxy123"),
    .enter sampleProvider, .answer 0]

/-- The user types "Paris" and presses Enter; the three requests are answered as
by `noListProvider`, the forecast request with a body without `list`. -/
def noListEvents : List Event :=
  [.change (utf16 "Paris"), .enter noListProvider, .answer 0, .answer 0, .answer 0]

/-! ## Lemmas on strings and lists -/

theorem split_ne_nil (sep : Nat) (s : JSString) : split sep s ≠ [] := by
  cases s with
  | nil => simp [split]
  | cons c cs =>
    simp only [split]
    split_ifs
    · simp
    · split <;> simp

theorem split_headD (sep : Nat) (s : JSString) :
    (split sep s).headD [] = s.takeWhile fun c => c ≠ sep := by
  induction s with
  | nil => simp [split]
  | cons c cs ih =>
    simp only [split]
    by_cases h : c = sep
    · simp [h]
    · simp only [h, if_false]
      cases hs : split sep cs with
      | nil => exact absurd hs (split_ne_nil sep cs)
      | cons p ps =>
        rw [hs] at ih
        simp only [List.headD_cons] at ih
        simp [List.takeWhile_cons, h, ih]

theorem dayKey_eq_datePart (x : ForecastEntry) : dayKey x = datePart x.dt_txt := by
  unfold dayKey datePart
  rw [split_headD]

theorem mem_firstOccurrences {κ : Type} [DecidableEq κ] (ks : List κ) (k : κ) :
    k ∈ firstOccurrences ks ↔ k ∈ ks := by
  induction ks with
  | nil => simp [firstOccurrences]
  | cons a ks ih =>
    simp only [firstOccurrences, List.mem_cons, List.mem_filter, ih]
    by_cases h : k = a <;> simp [h]

theorem nodup_firstOccurrences {κ : Type} [DecidableEq κ] (ks : List κ) :
    (firstOccurrences ks).Nodup := by
  induction ks with
  | nil => simp [firstOccurrences]
  | cons a ks ih =>
    simp only [firstOccurrences, List.nodup_cons, List.mem_filter]
    exact ⟨by simp, ih.filter _⟩

theorem firstOccurrences_append_singleton {κ : Type} [DecidableEq κ] (ks : List κ) (k : κ) :
    firstOccurrences (ks ++ [k]) =
      if k ∈ ks then firstOccurrences ks else firstOccurrences ks ++ [k] := by
  induction ks with
  | nil => simp [firstOccurrences]
  | cons a ks ih =>
    rw [List.cons_append, firstOccurrences, ih]
    by_cases hk : k ∈ ks
    · simp [hk, firstOccurrences]
    · by_cases ha : k = a
      · subst ha
        simp [hk, List.filter_append, firstOccurrences]
      · simp [hk, ha, List.filter_append, firstOccurrences]

/-! ## The reducer computes the stable partition -/

theorem lookup_map_pair {β : Type} (f : JSString → β) (l : List JSString) (k : JSString) :
    List.lookup k (l.map fun d => (d, f d)) = if k ∈ l then some (f k) else none := by
  induction l with
  | nil => simp
  | cons a l ih =>
    by_cases h : k = a
    · subst h
      simp [List.lookup]
    · have h1 : (k == a) = false := by simpa using h
      simp [List.lookup, h1, ih, h]

theorem lookup_groupsOf (xs : List ForecastEntry) (k : JSString) :
    List.lookup k (groupsOf xs) =
      if k ∈ xs.map dayKey then some (xs.filter fun x => dayKey x = k) else none := by
  unfold groupsOf
  rw [lookup_map_pair]
  simp only [mem_firstOccurrences]

theorem groupsOf_append_singleton (xs : List ForecastEntry) (x : ForecastEntry) :
    groupsOf (xs ++ [x]) =
      if dayKey x ∈ xs.map dayKey then
        (groupsOf xs).map fun p => if p.1 = dayKey x then (p.1, p.2 ++ [x]) else p
      else groupsOf xs ++ [(dayKey x, [x])] := by
  unfold groupsOf
  rw [List.map_append, List.map_singleton, firstOccurrences_append_singleton]
  by_cases hk : dayKey x ∈ xs.map dayKey
  · rw [if_pos hk, if_pos hk, List.map_map]
    apply List.map_congr_left
    intro d _
    by_cases hd : d = dayKey x
    · subst hd
      simp [List.filter_append]
    · have hd2 : ¬ dayKey x = d := fun h => hd h.symm
      simp [List.filter_append, hd, hd2]
  · rw [if_neg hk, if_neg hk, List.map_append, List.map_singleton]
    congr 1
    · apply List.map_congr_left
      intro d hd
      have hne : ¬ dayKey x = d := by
        intro h
        rw [mem_firstOccurrences] at hd
        exact hk (h ▸ hd)
      simp [List.filter_append, hne]
    · have hnil : xs.filter (fun y => dayKey y = dayKey x) = [] := by
        rw [List.filter_eq_nil_iff]
        intro y hy
        simp only [decide_eq_true_eq]
        intro h
        exact hk (List.mem_map.mpr ⟨y, hy, h⟩)
      simp [List.filter_append, hnil]

theorem groupStep_groupsOf (xs : List ForecastEntry) (x : ForecastEntry)
    (hx : dayKey x ∉ objectPrototypeKeys) :
    groupStep ⟨groupsOf xs⟩ x = .ok ⟨groupsOf (xs ++ [x])⟩ := by
  rw [groupsOf_append_singleton]
  by_cases hk : dayKey x ∈ xs.map dayKey
  · have hl := lookup_groupsOf xs (dayKey x)
    rw [if_pos hk] at hl
    simp only [groupStep, JSObject.get, hl, Lookup.truthy, JSObject.set, Option.isSome_some,
      if_true, if_pos hk, Bool.not_true, Bool.false_eq_true, if_false]
    congr 2
    apply List.map_congr_left
    intro p hp
    by_cases hp1 : p.1 = dayKey x
    · simp only [hp1, if_true]
      unfold groupsOf at hp
      rw [List.mem_map] at hp
      obtain ⟨d, _, rfl⟩ := hp
      simp only at hp1
      subst hp1
      rfl
    · simp [hp1]
  · have hl := lookup_groupsOf xs (dayKey x)
    rw [if_neg hk] at hl
    have hl2 : List.lookup (dayKey x) (groupsOf xs ++ [(dayKey x, [])]) = some [] := by
      rw [List.lookup_append, hl]
      simp [List.lookup]
    simp only [groupStep, JSObject.get, hl, if_neg hx, Lookup.truthy, JSObject.set,
      Option.isSome_none, Bool.false_eq_true, if_false, Bool.not_false, if_true, hl2,
      Option.isSome_some, if_neg hk, List.nil_append]
    congr 2
    rw [List.map_append]
    congr 1
    · conv_rhs => rw [← List.map_id (groupsOf xs)]
      apply List.map_congr_left
      intro p hp
      have hp1 : p.1 ≠ dayKey x := by
        intro h
        unfold groupsOf at hp
        rw [List.mem_map] at hp
        obtain ⟨d, hd, rfl⟩ := hp
        rw [mem_firstOccurrences] at hd
        exact hk (h ▸ hd)
      simp [hp1]
    · simp

theorem groupStep_inherited (xs : List ForecastEntry) (x : ForecastEntry)
    (hk : dayKey x ∉ xs.map dayKey) (hx : dayKey x ∈ objectPrototypeKeys) :
    groupStep ⟨groupsOf xs⟩ x = .error .typeError := by
  have hl := lookup_groupsOf xs (dayKey x)
  rw [if_neg hk] at hl
  simp [groupStep, JSObject.get, hl, hx, Lookup.truthy]

theorem groupFrom_append (acc : JSObject (List ForecastEntry)) (xs ys : List ForecastEntry) :
    groupFrom acc (xs ++ ys) =
      match groupFrom acc xs with
      | .ok acc1 => groupFrom acc1 ys
      | .error e => .error e := by
  induction xs generalizing acc with
  | nil => simp [groupFrom]
  | cons x xs ih =>
    simp only [List.cons_append, groupFrom]
    cases groupStep acc x with
    | ok a => simp [ih]
    | error e => simp

/-- Without a day that names a member of `Object.prototype`, the reducer
returns the object whose properties are the groups of the stable partition. -/
theorem groupedForecast_eq_groupsOf (xs : List ForecastEntry)
    (h : ∀ x ∈ xs, dayKey x ∉ objectPrototypeKeys) :
    groupedForecast xs = .ok ⟨groupsOf xs⟩ := by
  induction xs using List.reverseRecOn with
  | nil => rfl
  | append_singleton xs x ih =>
    unfold groupedForecast at ih ⊢
    rw [groupFrom_append, ih (fun y hy => h y (List.mem_append_left _ hy))]
    simp only [groupFrom]
    rw [groupStep_groupsOf xs x (h x (by simp))]

/-- With a day that names a member of `Object.prototype`, the reducer throws. -/
theorem groupedForecast_throws (xs : List ForecastEntry)
    (h : ∃ x ∈ xs, dayKey x ∈ objectPrototypeKeys) :
    groupedForecast xs = .error .typeError := by
  induction xs using List.reverseRecOn with
  | nil => simp at h
  | append_singleton xs x ih =>
    unfold groupedForecast at ih ⊢
    rw [groupFrom_append]
    by_cases hxs : ∃ y ∈ xs, dayKey y ∈ objectPrototypeKeys
    · rw [ih hxs]
    · have hall : ∀ y ∈ xs, dayKey y ∉ objectPrototypeKeys := by
        intro y hy hmem
        exact hxs ⟨y, hy, hmem⟩
      have hx : dayKey x ∈ objectPrototypeKeys := by
        obtain ⟨y, hy, hmem⟩ := h
        rcases List.mem_append.mp hy with hy1 | hy1
        · exact absurd hmem (hall y hy1)
        · simp only [List.mem_singleton] at hy1
          exact hy1 ▸ hmem
      have hok := groupedForecast_eq_groupsOf xs hall
      unfold groupedForecast at hok
      rw [hok]
      simp only [groupFrom]
      have hk : dayKey x ∉ xs.map dayKey := by
        intro hmem
        obtain ⟨y, hy, hyx⟩ := List.mem_map.mp hmem
        exact hall y hy (hyx ▸ hx)
      rw [groupStep_inherited xs x hk hx]

theorem groupedForecast_ok_iff (xs : List ForecastEntry) (m : JSObject (List ForecastEntry)) :
    groupedForecast xs = .ok m ↔
      (∀ x ∈ xs, dayKey x ∉ objectPrototypeKeys) ∧ m = ⟨groupsOf xs⟩ := by
  constructor
  · intro hm
    by_cases h : ∀ x ∈ xs, dayKey x ∉ objectPrototypeKeys
    · rw [groupedForecast_eq_groupsOf xs h] at hm
      exact ⟨h, (Except.ok.inj hm).symm⟩
    · have h2 : ∃ x ∈ xs, dayKey x ∈ objectPrototypeKeys := by
        by_contra hc
        exact h fun x hx hmem => hc ⟨x, hx, hmem⟩
      rw [groupedForecast_throws xs h2] at hm
      cases hm
  · rintro ⟨h, rfl⟩
    exact groupedForecast_eq_groupsOf xs h

/-! ## Enumeration of an object -/

theorem entries_perm {α : Type} (o : JSObject α) : o.entries.Perm o.props := by
  unfold JSObject.entries
  refine ((List.perm_insertionSort _ _).append_right _).trans ?_
  have h := List.filter_append_perm (fun p : JSString × α => (arrayIndex? p.1).isSome) o.props
  simpa using h

theorem mem_entries {α : Type} (o : JSObject α) (p : JSString × α) :
    p ∈ o.entries ↔ p ∈ o.props :=
  (entries_perm o).mem_iff

theorem entries_eq_props {α : Type} (o : JSObject α)
    (h : ∀ p ∈ o.props, arrayIndex? p.1 = none) : o.entries = o.props := by
  unfold JSObject.entries
  have h1 : o.props.filter (fun p => (arrayIndex? p.1).isSome) = [] := by
    rw [List.filter_eq_nil_iff]
    intro p hp
    simp [h p hp]
  have h2 : o.props.filter (fun p => !(arrayIndex? p.1).isSome) = o.props := by
    rw [List.filter_eq_self]
    intro p hp
    simp [h p hp]
  rw [h1, h2]
  rfl

theorem entries_singleton {α : Type} (p : JSString × α) :
    (JSObject.mk [p]).entries = [p] := by
  unfold JSObject.entries
  cases h : arrayIndex? p.1 with
  | none => simp [h]
  | some i => simp [h]

/-! ## Properties of the groups -/

theorem groupsOf_keys (xs : List ForecastEntry) :
    (groupsOf xs).map Prod.fst = firstOccurrences (xs.map dayKey) := by
  unfold groupsOf
  rw [List.map_map]
  exact List.map_id _

theorem mem_groupsOf (xs : List ForecastEntry) (d : JSString) (g : List ForecastEntry) :
    (d, g) ∈ groupsOf xs ↔ d ∈ xs.map dayKey ∧ g = xs.filter fun x => dayKey x = d := by
  unfold groupsOf
  rw [List.mem_map]
  constructor
  · rintro ⟨k, hk, hkg⟩
    rw [mem_firstOccurrences] at hk
    cases hkg
    exact ⟨hk, rfl⟩
  · rintro ⟨hd, rfl⟩
    exact ⟨d, (mem_firstOccurrences _ _).mpr hd, rfl⟩

theorem flatten_filter_perm {κ β : Type} [DecidableEq κ] (f : β → κ) :
    ∀ (l : List κ) (xs : List β), l.Nodup → (∀ x ∈ xs, f x ∈ l) →
      (l.map fun d => xs.filter fun x => f x = d).flatten.Perm xs := by
  intro l
  induction l with
  | nil =>
    intro xs _ h
    cases xs with
    | nil => simp
    | cons x xs => simpa using h x (by simp)
  | cons a l ih =>
    intro xs hnd hmem
    rw [List.nodup_cons] at hnd
    simp only [List.map_cons, List.flatten_cons]
    have hrest : (l.map fun d => xs.filter fun x => f x = d) =
        l.map fun d => (xs.filter fun x => !decide (f x = a)).filter fun x => f x = d := by
      apply List.map_congr_left
      intro d hd
      rw [List.filter_filter]
      apply List.filter_congr
      intro x _
      by_cases hx : f x = d
      · subst hx
        have hne : f x ≠ a := by
          intro h
          exact hnd.1 (h ▸ hd)
        simp [hne]
      · simp [hx]
    rw [hrest]
    have hsub : ∀ x ∈ xs.filter (fun x => !decide (f x = a)), f x ∈ l := by
      intro x hx
      rw [List.mem_filter] at hx
      have hne : f x ≠ a := by simpa using hx.2
      rcases List.mem_cons.mp (hmem x hx.1) with h | h
      · exact absurd h hne
      · exact h
    refine ((ih _ hnd.2 hsub).append_left _).trans ?_
    exact List.filter_append_perm (fun x => decide (f x = a)) xs

theorem groupsOf_flatten_perm (xs : List ForecastEntry) :
    ((groupsOf xs).map Prod.snd).flatten.Perm xs := by
  unfold groupsOf
  rw [List.map_map]
  refine flatten_filter_perm dayKey (firstOccurrences (xs.map dayKey)) xs
    (nodup_firstOccurrences _) ?_
  intro x hx
  rw [mem_firstOccurrences]
  exact List.mem_map_of_mem _ hx

theorem groupsOf_isStablePartition (xs : List ForecastEntry) :
    IsStablePartition xs ⟨groupsOf xs⟩ := by
  have hp := entries_perm (JSObject.mk (groupsOf xs))
  simp only at hp
  refine ⟨?_, ?_, ?_, ?_⟩
  · intro d
    rw [(hp.map Prod.fst).mem_iff, groupsOf_keys, mem_firstOccurrences, List.mem_map]
    simp only [dayKey_eq_datePart]
  · rw [(hp.map Prod.fst).nodup_iff, groupsOf_keys]
    exact nodup_firstOccurrences _
  · intro d g hdg
    rw [hp.mem_iff, mem_groupsOf] at hdg
    obtain ⟨hd, hg⟩ := hdg
    simp only [dayKey_eq_datePart] at hg hd
    refine ⟨?_, hg⟩
    rw [hg]
    obtain ⟨x, hx, hxd⟩ := List.mem_map.mp hd
    intro hnil
    have : x ∈ xs.filter fun x => datePart x.dt_txt = d := by
      rw [List.mem_filter]
      exact ⟨hx, by simpa [dayKey_eq_datePart] using hxd⟩
    rw [hnil] at this
    simp at this
  · exact ((hp.map Prod.snd).flatten).trans (groupsOf_flatten_perm xs)

theorem firstOccurrences_constant {κ : Type} [DecidableEq κ] (ks : List κ) (d : κ)
    (hne : ks ≠ []) (h : ∀ k ∈ ks, k = d) : firstOccurrences ks = [d] := by
  cases ks with
  | nil => exact absurd rfl hne
  | cons a ks =>
    have ha : a = d := h a (by simp)
    subst ha
    simp only [firstOccurrences, List.cons.injEq, true_and]
    rw [List.filter_eq_nil_iff]
    intro k hk
    rw [mem_firstOccurrences] at hk
    simp [h k (List.mem_cons_of_mem _ hk)]

theorem groupsOf_one_day (xs : List ForecastEntry) (d : JSString) (hne : xs ≠ [])
    (h : ∀ x ∈ xs, dayKey x = d) : groupsOf xs = [(d, xs)] := by
  unfold groupsOf
  rw [firstOccurrences_constant (xs.map dayKey) d (by simpa using hne)
    (by
      intro k hk
      obtain ⟨x, hx, rfl⟩ := List.mem_map.mp hk
      exact h x hx)]
  simp only [List.map_cons, List.map_nil, List.cons.injEq, Prod.mk.injEq, true_and, and_true]
  rw [List.filter_eq_self]
  intro x hx
  simpa using h x hx

/-! ## Lemmas on `getWeather` -/

theorem trim_eq_nil (s : JSString) (h : ∀ c ∈ s, isWhiteSpace c = true) : trim s = [] := by
  unfold trim
  have h1 : s.dropWhile isWhiteSpace = [] := by
    rw [List.dropWhile_eq_nil_iff]
    exact h
  rw [h1]
  rfl

theorem applyOp_selectedDayData (s : State) (o : Op) :
    (applyOp s o).selectedDayData = s.selectedDayData := by
  cases o <;> rfl

theorem trace_selectedDayData (ops : List Op) :
    ∀ (s : State), ∀ t ∈ trace s ops, t.selectedDayData = s.selectedDayData := by
  induction ops with
  | nil =>
    intro s t ht
    simp [trace] at ht
  | cons o ops ih =>
    intro s t ht
    simp only [trace, List.mem_cons] at ht
    rcases ht with rfl | ht
    · exact applyOp_selectedDayData s o
    · rw [ih _ t ht, applyOp_selectedDayData]

theorem runOps_selectedDayData (ops : List Op) :
    ∀ (s : State), (runOps s ops).selectedDayData = s.selectedDayData := by
  induction ops with
  | nil =>
    intro s
    rfl
  | cons o ops ih =>
    intro s
    simp only [runOps, List.foldl_cons] at ih ⊢
    rw [ih, applyOp_selectedDayData]

/-- The four ways a fetch for a query that is not blank can go, with the
actions of each. -/
theorem getWeatherOps_cases (P : Provider) (location : JSString) (hq : trim location ≠ []) :
    (((P.geocode (trim location)).failed = true ∨ P.geocode (trim location) = .ok []) ∧
      getWeatherOps P location =
        [.setLoading true, .toast (.info (utf16 "Fetching weather data...")),
          .await (.geocode (trim location))] ++ catchBlock ++ finallyBlock) ∨
    (∃ first rest, P.geocode (trim location) = .ok (first :: rest) ∧
      (P.current first.lat first.lon).failed = true ∧
      getWeatherOps P location =
        [.setLoading true, .toast (.info (utf16 "Fetching weather data...")),
          .await (.geocode (trim location)), .await (.current first.lat first.lon)]
          ++ catchBlock ++ finallyBlock) ∨
    (∃ first rest data, P.geocode (trim location) = .ok (first :: rest) ∧
      P.current first.lat first.lon = .ok data ∧
      (P.forecast first.lat first.lon).failed = true ∧
      getWeatherOps P location =
        [.setLoading true, .toast (.info (utf16 "Fetching weather data...")),
          .await (.geocode (trim location)), .await (.current first.lat first.lon),
          .setCurrentWeather (some (buildCurrent first data)),
          .await (.forecast first.lat first.lon)]
          ++ catchBlock ++ finallyBlock) ∨
    (∃ first rest data fdata, P.geocode (trim location) = .ok (first :: rest) ∧
      P.current first.lat first.lon = .ok data ∧
      P.forecast first.lat first.lon = .ok fdata ∧
      getWeatherOps P location =
        [.setLoading true, .toast (.info (utf16 "Fetching weather data...")),
          .await (.geocode (trim location)), .await (.current first.lat first.lon),
          .setCurrentWeather (some (buildCurrent first data)),
          .await (.forecast first.lat first.lon),
          .setForecast fdata.list, .setError [],
          .toast (.success (utf16 "Weather data for " ++ first.name ++ utf16 ", "
            ++ first.country ++ utf16 " loaded successfully!"))]
          ++ finallyBlock) := by
  unfold getWeatherOps
  simp only [hq, if_false]
  unfold tryBlock
  cases hg : P.geocode (trim location) with
  | rejected => left; simp [Reply.failed]
  | malformed => left; simp [Reply.failed]
  | ok ms =>
    cases ms with
    | nil => left; simp
    | cons first rest =>
      right
      cases hc : P.current first.lat first.lon with
      | rejected => left; exact ⟨first, rest, rfl, by simp [Reply.failed, hc]⟩
      | malformed => left; exact ⟨first, rest, rfl, by simp [Reply.failed, hc]⟩
      | ok data =>
        right
        cases hf : P.forecast first.lat first.lon with
        | rejected => left; exact ⟨first, rest, data, rfl, hc, by simp [Reply.failed, hf, hc]⟩
        | malformed => left; exact ⟨first, rest, data, rfl, hc, by simp [Reply.failed, hf, hc]⟩
        | ok fdata => right; exact ⟨first, rest, data, fdata, rfl, hc, hf, by simp [hc, hf]⟩

/-! ## Day keys of timestamps -/

/-- A key with a hyphen in it, as every date "YYYY-MM-DD" is, is not an array
index and names no member of `Object.prototype`. -/
theorem hyphen_key_ordinary (key : JSString) (h : 45 ∈ key) :
    arrayIndex? key = none ∧ key ∉ objectPrototypeKeys := by
  constructor
  · unfold arrayIndex?
    rw [if_neg]
    rintro ⟨-, hall, -⟩
    rw [List.all_eq_true] at hall
    have := hall 45 h
    revert this
    decide
  · intro hmem
    have hnone : ∀ k ∈ objectPrototypeKeys, 45 ∉ k := by decide
    exact hnone key hmem h

theorem isDigit_ne_space (c : Nat) (h : isDigit c = true) : c ≠ space := by
  rintro rfl
  revert h
  decide

/-- The shape of a timestamp: nineteen code units, digits but for the hyphens,
the space and the colons. -/
theorem isTimestamp_shape (s : JSString) (h : isTimestamp s = true) :
    ∃ y1 y2 y3 y4 mo1 mo2 d1 d2 : Nat, ∃ time : JSString,
      s = [y1, y2, y3, y4, 45, mo1, mo2, 45, d1, d2] ++ space :: time ∧
      isDigit y1 = true ∧ isDigit y2 = true ∧ isDigit y3 = true ∧ isDigit y4 = true ∧
      isDigit mo1 = true ∧ isDigit mo2 = true ∧ isDigit d1 = true ∧ isDigit d2 = true := by
  unfold isTimestamp at h
  split at h
  · rename_i y1 y2 y3 y4 h1 mo1 mo2 h2 d1 d2 sp ho1 ho2 c1 mi1 mi2 c2 s1 s2
    simp only [List.all_cons, List.all_nil, Bool.and_true, Bool.and_eq_true,
      decide_eq_true_eq] at h
    obtain ⟨⟨⟨⟨⟨⟨hy1, hy2, hy3, hy4, hmo1, hmo2, hd1, hd2, -⟩, rfl⟩, rfl⟩, rfl⟩, -⟩, -⟩ := h
    exact ⟨y1, y2, y3, y4, mo1, mo2, d1, d2, _, rfl, hy1, hy2, hy3, hy4, hmo1, hmo2, hd1, hd2⟩
  · cases h

/-- The day key of an entry with a timestamp is its date, which is not an array
index and names no member of `Object.prototype`. -/
theorem dayKey_of_timestamp (e : ForecastEntry) (h : isTimestamp e.dt_txt = true) :
    dayKey e = e.dt_txt.take 10 ∧
    arrayIndex? (dayKey e) = none ∧ dayKey e ∉ objectPrototypeKeys := by
  obtain ⟨y1, y2, y3, y4, mo1, mo2, d1, d2, time, hdt, hy1, hy2, hy3, hy4, hmo1, hmo2, hd1,
    hd2⟩ := isTimestamp_shape e.dt_txt h
  have hk : dayKey e = [y1, y2, y3, y4, 45, mo1, mo2, 45, d1, d2] := by
    rw [dayKey_eq_datePart, hdt]
    unfold datePart
    have e1 := isDigit_ne_space y1 hy1
    have e2 := isDigit_ne_space y2 hy2
    have e3 := isDigit_ne_space y3 hy3
    have e4 := isDigit_ne_space y4 hy4
    have e5 : ¬ (45 : Nat) = space := by decide
    have e6 := isDigit_ne_space mo1 hmo1
    have e7 := isDigit_ne_space mo2 hmo2
    have e9 := isDigit_ne_space d1 hd1
    have e10 := isDigit_ne_space d2 hd2
    simp [List.takeWhile_cons, e1, e2, e3, e4, e5, e6, e7, e9, e10]
  rw [hk]
  refine ⟨?_, hyphen_key_ordinary _ (by simp)⟩
  rw [hdt]
  rfl

theorem timestamps_ordinary (xs : List ForecastEntry)
    (h : ∀ x ∈ xs, isTimestamp x.dt_txt = true) :
    (∀ x ∈ xs, dayKey x ∉ objectPrototypeKeys) ∧
    (∀ x ∈ xs, arrayIndex? (dayKey x) = none) :=
  ⟨fun x hx => (dayKey_of_timestamp x (h x hx)).2.2,
    fun x hx => (dayKey_of_timestamp x (h x hx)).2.1⟩

/-! ## Lemmas on numbers -/

theorem jsDivide_ten_thousand : jsDivide 10000 1000 = 10 := by decide

/-- The quotient is rounded: a visibility of 0.07 gives 7.000000000000001e-5,
the binary64 value next above the one nearest to 0.00007. -/
theorem jsDivide_sevenHundredths :
    jsDivide sevenHundredths 1000 = .finite false (mkRat 5165088340638675 (2 ^ 66)) ∧
    roundBinary64 7 100000 = some (mkRat 5165088340638674 (2 ^ 66)) := by
  constructor <;> rfl

/-- A body without `visibility` gives `NaN`. -/
theorem buildCurrent_no_visibility (first : GeoMatch) (data : CurrentPayload)
    (h : data.visibility = none) : (buildCurrent first data).visibility = .nan := by
  simp only [buildCurrent, h]
  rfl

/-! ## Lemmas on the state machine -/

theorem advance_selectedDayData (ops : List Op) :
    ∀ s : State, (advance s ops).1.selectedDayData = s.selectedDayData := by
  induction ops with
  | nil =>
    intro s
    rfl
  | cons o ops ih =>
    intro s
    cases o with
    | await r => rfl
    | setError m => exact (ih _).trans rfl
    | setLoading v => exact (ih _).trans rfl
    | setCurrentWeather v => exact (ih _).trans rfl
    | setForecast v => exact (ih _).trans rfl
    | toast t => exact (ih _).trans rfl

theorem suspend_selectedDayData (pending : List (List Op)) (r : State × Option (List Op)) :
    (suspend pending r).state = r.1 := by
  obtain ⟨s, _ | rest⟩ := r <;> rfl

theorem getWeather_selectedDayData (P : Provider) (c : Component) :
    (getWeather P c).state.selectedDayData = c.state.selectedDayData := by
  unfold getWeather
  rw [suspend_selectedDayData, advance_selectedDayData]

theorem answer_selectedDayData (i : Nat) (c c1 : Component) (h : answer i c = some c1) :
    c1.state.selectedDayData = c.state.selectedDayData := by
  unfold answer at h
  cases hp : c.pending[i]? with
  | none =>
    rw [hp] at h
    cases h
  | some ops =>
    rw [hp] at h
    simp only at h
    have hadv := advance_selectedDayData ops c.state
    cases hr : advance c.state ops with
    | mk s rest =>
      rw [hr] at h hadv
      cases rest with
      | none =>
        simp only [Option.some.injEq] at h
        subst h
        exact hadv
      | some rest =>
        simp only [Option.some.injEq] at h
        subst h
        exact hadv

theorem answer_zero (s : State) (ops : List Op) (pending : List (List Op)) :
    answer 0 ⟨s, ops :: pending⟩ = some (suspend pending (advance s ops)) := by
  unfold answer
  simp only [List.getElem?_cons_zero]
  cases advance s ops with
  | mk s1 rest =>
    cases rest <;> rfl

theorem suspensions_fst (ops : List Op) :
    ∀ s : State, (suspensions s ops).map Prod.fst = requests ops := by
  induction ops with
  | nil =>
    intro s
    rfl
  | cons o ops ih =>
    intro s
    cases o <;> simp [suspensions, requests, ih]

/-- A call whose requests are all answered before anything else happens ends in
the state that its actions, applied one after the other, lead to, and leaves
the other pending calls as they were. -/
theorem answerTimes_alone (ops : List Op) (pending : List (List Op)) :
    ∀ s : State, answerTimes 0 (requests ops).length (suspend pending (advance s ops))
      = some ⟨runOps s ops, pending⟩ := by
  induction ops with
  | nil =>
    intro s
    rfl
  | cons o ops ih =>
    intro s
    cases o with
    | await r =>
      show answerTimes 0 ((requests ops).length + 1) ⟨s, ops :: pending⟩ = _
      simp only [answerTimes, answer_zero, Option.some_bind]
      exact ih s
    | setError m => exact ih _
    | setLoading v => exact ih _
    | setCurrentWeather v => exact ih _
    | setForecast v => exact ih _
    | toast t => exact ih _

/-- While the call waits for the answer to its request number `k`, the others
before it answered and nothing else having happened, the state is the one at
that `await`. -/
theorem answerTimes_suspension (ops : List Op) (pending : List (List Op)) :
    ∀ (s : State) (k : Nat) (r : Request) (t : State),
      (suspensions s ops)[k]? = some (r, t) →
      ∃ rest, answerTimes 0 k (suspend pending (advance s ops)) = some ⟨t, rest :: pending⟩ := by
  induction ops with
  | nil =>
    intro s k r t h
    simp [suspensions] at h
  | cons o ops ih =>
    intro s k r t h
    cases o with
    | await r0 =>
      cases k with
      | zero =>
        simp only [suspensions, List.getElem?_cons_zero, Option.some.injEq, Prod.mk.injEq] at h
        obtain ⟨-, rfl⟩ := h
        exact ⟨ops, rfl⟩
      | succ k =>
        simp only [suspensions, List.getElem?_cons_succ] at h
        show ∃ rest, answerTimes 0 (k + 1) ⟨s, ops :: pending⟩ = _
        simp only [answerTimes, answer_zero, Option.some_bind]
        exact ih s k r t h
    | setError m => exact ih _ k r t h
    | setLoading v => exact ih _ k r t h
    | setCurrentWeather v => exact ih _ k r t h
    | setForecast v => exact ih _ k r t h
    | toast t0 => exact ih _ k r t h

/-! ## Claims on the grouping -/

/-- The reducer computes the stable partition by day of every list none of whose
day keys names a member of `Object.prototype`. -/
theorem groupedForecast_partition_of_ordinary (xs : List ForecastEntry)
    (h : ∀ x ∈ xs, datePart x.dt_txt ∉ objectPrototypeKeys) :
    ∃ m, groupedForecast xs = .ok m ∧ IsStablePartition xs m ∧
      (xs = [] → m.entries = []) ∧
      (∀ d, xs ≠ [] → (∀ x ∈ xs, datePart x.dt_txt = d) → m.entries = [(d, xs)]) := by
  have h1 : ∀ x ∈ xs, dayKey x ∉ objectPrototypeKeys := by
    intro x hx
    rw [dayKey_eq_datePart]
    exact h x hx
  refine ⟨⟨groupsOf xs⟩, groupedForecast_eq_groupsOf xs h1, groupsOf_isStablePartition xs, ?_, ?_⟩
  · rintro rfl
    rfl
  · intro d hne hd
    have hd1 : ∀ x ∈ xs, dayKey x = d := by
      intro x hx
      rw [dayKey_eq_datePart]
      exact hd x hx
    rw [groupsOf_one_day xs d hne hd1]
    exact entries_singleton (d, xs)

/-- C9. For every list of forecast entries and every group `(d, g)` of its
grouping, grouping `g` again gives exactly one group, with key `d` and value
`g`. -/
theorem groupedForecast_regroup (xs : List ForecastEntry) (m : JSObject (List ForecastEntry))
    (d : JSString) (g : List ForecastEntry)
    (hm : groupedForecast xs = .ok m) (hg : (d, g) ∈ m.entries) :
    groupedForecast g = .ok ⟨[(d, g)]⟩ ∧ (JSObject.mk [(d, g)]).entries = [(d, g)] := by
  obtain ⟨hproto, rfl⟩ := (groupedForecast_ok_iff xs m).mp hm
  rw [mem_entries, mem_groupsOf] at hg
  obtain ⟨hd, hgeq⟩ := hg
  have hsub : ∀ x ∈ g, x ∈ xs ∧ dayKey x = d := by
    intro x hx
    rw [hgeq, List.mem_filter] at hx
    exact ⟨hx.1, by simpa using hx.2⟩
  have hne : g ≠ [] := by
    obtain ⟨x, hx, hxd⟩ := List.mem_map.mp hd
    intro hnil
    have hmem : x ∈ g := by
      rw [hgeq, List.mem_filter]
      exact ⟨hx, by simpa using hxd⟩
    rw [hnil] at hmem
    simp at hmem
  refine ⟨?_, entries_singleton (d, g)⟩
  rw [groupedForecast_eq_groupsOf g (fun x hx => hproto x (hsub x hx).1),
    groupsOf_one_day g d hne (fun x hx => (hsub x hx).2)]

/-- The groups are enumerated in the order of first occurrence of their days for
every list none of whose day keys is an array index or names a member of
`Object.prototype`. -/
theorem groupedForecast_order_of_ordinary (xs : List ForecastEntry)
    (hproto : ∀ x ∈ xs, datePart x.dt_txt ∉ objectPrototypeKeys)
    (hindex : ∀ x ∈ xs, arrayIndex? (datePart x.dt_txt) = none) :
    ∃ m, groupedForecast xs = .ok m ∧
      m.entries.map Prod.fst = firstOccurrences (xs.map fun x => datePart x.dt_txt) := by
  have h1 : ∀ x ∈ xs, dayKey x ∉ objectPrototypeKeys := by
    intro x hx
    rw [dayKey_eq_datePart]
    exact hproto x hx
  refine ⟨⟨groupsOf xs⟩, groupedForecast_eq_groupsOf xs h1, ?_⟩
  have hdk : (fun x : ForecastEntry => datePart x.dt_txt) = dayKey := by
    funext x
    exact (dayKey_eq_datePart x).symm
  rw [entries_eq_props, hdk]
  · exact groupsOf_keys xs
  · intro p hp
    obtain ⟨hd, -⟩ := (mem_groupsOf xs p.1 p.2).mp hp
    obtain ⟨x, hx, hxd⟩ := List.mem_map.mp hd
    rw [← hxd, dayKey_eq_datePart]
    exact hindex x hx

/-- C3. The chart series has one point for each entry, in the same order; the
point at position `i` takes `temp`, `humidity` and `pressure` from `main`,
`wind_speed` from `wind.speed`, `cloudiness` from `clouds.all` of the entry at
position `i`, and its `time` is made of the code units of `dt_txt` at positions
11 to 15. For a `dt_txt` of the form "YYYY-MM-DD HH:MM:SS" the time is "HH:MM". -/
theorem toChartSeries_pointwise (xs : List ForecastEntry) :
    (toChartSeries xs).length = xs.length ∧
    (∀ i : Nat, (toChartSeries xs)[i]? = (xs[i]?).map fun e =>
      ChartPoint.mk (slice e.dt_txt 11 16) e.main.temp e.main.humidity e.main.pressure
        e.wind.speed e.clouds.all) ∧
    (∀ e : ForecastEntry, (chartPoint e).time.length ≤ 5 ∧
      ∀ j, j < 5 → (chartPoint e).time[j]? = e.dt_txt[11 + j]?) ∧
    (∀ y1 y2 y3 y4 mo1 mo2 d1 d2 h1 h2 mi1 mi2 s1 s2 : Nat,
      slice [y1, y2, y3, y4, 45, mo1, mo2, 45, d1, d2, space, h1, h2, 58, mi1, mi2, 58, s1, s2]
        11 16 = [h1, h2, 58, mi1, mi2]) := by
  refine ⟨by simp [toChartSeries], ?_, ?_, ?_⟩
  · intro i
    simp only [toChartSeries, List.getElem?_map]
    rfl
  · intro e
    refine ⟨?_, ?_⟩
    · simp only [chartPoint, slice, List.length_take]
      omega
    · intro j hj
      simp only [chartPoint, slice]
      rw [List.getElem?_take_of_lt (by omega), List.getElem?_drop]
  · intros
    rfl

/-- C1. For every list of forecast entries, each with a timestamp
"YYYY-MM-DD HH:MM:SS" as `dt_txt`, `groupedForecast` returns a mapping that is
the stable partition of the list by day key, the part of `dt_txt` before its
first space: its keys are exactly the day keys that occur, no group is empty,
the group of a day is the sub-list of the entries of that day in their
original order, and every entry is in exactly one group once. The empty list
gives the empty mapping, and a list whose entries share one date gives the
single group that is the whole list. -/
theorem groupedForecast_stable_partition (xs : List ForecastEntry)
    (h : ∀ x ∈ xs, isTimestamp x.dt_txt = true) :
    ∃ m, groupedForecast xs = .ok m ∧ IsStablePartition xs m ∧
      (xs = [] → m.entries = []) ∧
      (∀ d, xs ≠ [] → (∀ x ∈ xs, datePart x.dt_txt = d) → m.entries = [(d, xs)]) := by
  apply groupedForecast_partition_of_ordinary
  intro x hx
  rw [← dayKey_eq_datePart]
  exact (timestamps_ordinary xs h).1 x hx

/-- C2. For every list of forecast entries, each with a timestamp
"YYYY-MM-DD HH:MM:SS" as `dt_txt`, the order in which
`Object.entries(groupedForecast)` lists the groups is the order in which each
day key first occurs in the list. -/
theorem groupedForecast_first_occurrence_order (xs : List ForecastEntry)
    (h : ∀ x ∈ xs, isTimestamp x.dt_txt = true) :
    ∃ m, groupedForecast xs = .ok m ∧
      m.entries.map Prod.fst = firstOccurrences (xs.map fun x => datePart x.dt_txt) := by
  apply groupedForecast_order_of_ordinary
  · intro x hx
    rw [← dayKey_eq_datePart]
    exact (timestamps_ordinary xs h).1 x hx
  · intro x hx
    rw [← dayKey_eq_datePart]
    exact (timestamps_ordinary xs h).2 x hx

/-- Witness of C1 on three samples over two days. -/
theorem groupedForecast_stable_partition_witness :
    (∀ x ∈ sampleForecast, isTimestamp x.dt_txt = true) ∧
    ∃ m, groupedForecast sampleForecast = .ok m ∧ IsStablePartition sampleForecast m ∧
      (sampleForecast = [] → m.entries = []) ∧
      (∀ d, sampleForecast ≠ [] → (∀ x ∈ sampleForecast, datePart x.dt_txt = d) →
        m.entries = [(d, sampleForecast)]) :=
  ⟨by decide, groupedForecast_stable_partition sampleForecast (by decide)⟩

/-- Witness of C9 on three samples over two days, for the group of the first
day. -/
theorem groupedForecast_regroup_witness :
    groupedForecast sampleForecast = .ok ⟨groupsOf sampleForecast⟩ ∧
    (utf16 "2024-01-15",
      [sampleEntry "2024-01-15 21:00:00", sampleEntry "2024-01-15 18:00:00"])
        ∈ (JSObject.mk (groupsOf sampleForecast)).entries ∧
    groupedForecast
        [sampleEntry "2024-01-15 21:00:00", sampleEntry "2024-01-15 18:00:00"] =
      .ok ⟨[(utf16 "2024-01-15",
        [sampleEntry "2024-01-15 21:00:00", sampleEntry "2024-01-15 18:00:00"])]⟩ :=
  ⟨rfl, by decide,
    (groupedForecast_regroup sampleForecast ⟨groupsOf sampleForecast⟩ (utf16 "2024-01-15")
      [sampleEntry "2024-01-15 21:00:00", sampleEntry "2024-01-15 18:00:00"]
      rfl (by decide)).1⟩

/-- Witness of C2 on three samples over two days: the day of the first sample
comes first, although one of its samples is the last of the list. -/
theorem groupedForecast_first_occurrence_order_witness :
    (∀ x ∈ sampleForecast, isTimestamp x.dt_txt = true) ∧
    firstOccurrences (sampleForecast.map fun x => datePart x.dt_txt)
      = [utf16 "2024-01-15", utf16 "2024-01-16"] ∧
    ∃ m, groupedForecast sampleForecast = .ok m ∧
      m.entries.map Prod.fst = firstOccurrences (sampleForecast.map fun x => datePart x.dt_txt) :=
  ⟨by decide, by decide, groupedForecast_first_occurrence_order sampleForecast (by decide)⟩

/-! ## One call of `getWeather` with nothing in between -/

/-- C4. For every location that is empty or made of white space only,
`getWeather` sends no request and is never suspended, sets the error to
"Please enter a location", and leaves loading, current weather, forecast and
all other state as they were; the call ends at once, whatever other calls are
pending. -/
theorem getWeather_blank_location (P : Provider) (s : State)
    (h : ∀ c ∈ s.location, isWhiteSpace c = true) :
    requests (getWeatherOps P s.location) = [] ∧
    suspensions s (getWeatherOps P s.location) = [] ∧
    runOps s (getWeatherOps P s.location)
      = { s with error := utf16 "Please enter a location" } ∧
    (runOps s (getWeatherOps P s.location)).loading = s.loading ∧
    (runOps s (getWeatherOps P s.location)).currentWeather = s.currentWeather ∧
    (runOps s (getWeatherOps P s.location)).forecast = s.forecast ∧
    (∀ pending, getWeather P ⟨s, pending⟩
      = ⟨{ s with error := utf16 "Please enter a location" }, pending⟩) := by
  have hops : getWeatherOps P s.location =
      [.setError (utf16 "Please enter a location"),
        .toast (.error (utf16 "Enter a valid city name!"))] := by
    unfold getWeatherOps
    simp only [trim_eq_nil s.location h, if_true]
  unfold getWeather
  simp only [hops]
  exact ⟨rfl, rfl, rfl, rfl, rfl, rfl, fun _ => rfl⟩

/-- The actions of a call for a query that is not blank and whose three
requests are answered, applied with nothing in between, store the name and
country of the first geocode match, the quotient of the visibility by 1000, the
forecast list of the answer and an empty error; the requests are the geocode
request for the trimmed location, then the current-conditions and forecast
requests with the latitude and longitude of that match. -/
theorem runOps_success (P : Provider) (s : State) (first : GeoMatch)
    (rest : List GeoMatch) (data : CurrentPayload) (fdata : ForecastPayload)
    (hq : trim s.location ≠ [])
    (hg : P.geocode (trim s.location) = .ok (first :: rest))
    (hc : P.current first.lat first.lon = .ok data)
    (hf : P.forecast first.lat first.lon = .ok fdata) :
    (∃ cw, (runOps s (getWeatherOps P s.location)).currentWeather = some cw ∧
      cw.name = first.name ∧ cw.country = first.country ∧
      cw.visibility = jsDivide (toNumber data.visibility) 1000 ∧
      (data.visibility = some 10000 → cw.visibility = 10)) ∧
    (runOps s (getWeatherOps P s.location)).forecast = fdata.list ∧
    (runOps s (getWeatherOps P s.location)).error = [] ∧
    requests (getWeatherOps P s.location) =
      [.geocode (trim s.location), .current first.lat first.lon,
        .forecast first.lat first.lon] := by
  have hops : getWeatherOps P s.location =
      [.setLoading true, .toast (.info (utf16 "Fetching weather data...")),
        .await (.geocode (trim s.location)), .await (.current first.lat first.lon),
        .setCurrentWeather (some (buildCurrent first data)),
        .await (.forecast first.lat first.lon),
        .setForecast fdata.list, .setError [],
        .toast (.success (utf16 "Weather data for " ++ first.name ++ utf16 ", "
          ++ first.country ++ utf16 " loaded successfully!"))]
        ++ finallyBlock := by
    unfold getWeatherOps
    simp only [hq, if_false]
    unfold tryBlock
    simp only [hg, hc, hf]
    rfl
  rw [hops]
  refine ⟨⟨buildCurrent first data, rfl, rfl, rfl, rfl, ?_⟩, rfl, rfl, rfl⟩
  intro hv
  simp only [buildCurrent, hv]
  decide

/-- The actions of a call for a query that is not blank and whose fetch fails
at a step (no geocode match; a request that is rejected, or answered with a
body that the code cannot read), applied with nothing in between, leave the one
failure message, no current weather and an empty forecast, whatever the state
was before. When the geocode request finds no match or fails, it is the only
request sent. -/
theorem runOps_failure (P : Provider) (s : State)
    (hq : trim s.location ≠ []) (hfail : FetchFails P (trim s.location)) :
    (runOps s (getWeatherOps P s.location)).error = utf16 "Location not found or error fetching data" ∧
    (runOps s (getWeatherOps P s.location)).currentWeather = none ∧
    (runOps s (getWeatherOps P s.location)).forecast = .array [] ∧
    (P.geocode (trim s.location) = .ok [] ∨ (P.geocode (trim s.location)).failed = true →
      requests (getWeatherOps P s.location) = [.geocode (trim s.location)]) := by
  rcases getWeatherOps_cases P s.location hq with
    ⟨-, hops⟩ | ⟨first, rest, hg, -, hops⟩ | ⟨first, rest, data, hg, -, -, hops⟩ |
    ⟨first, rest, data, fdata, hg, hc, hf, -⟩
  · rw [hops]
    exact ⟨rfl, rfl, rfl, fun _ => rfl⟩
  · rw [hops]
    refine ⟨rfl, rfl, rfl, ?_⟩
    rw [hg]
    rintro (h | h)
    · cases h
    · simp [Reply.failed] at h
  · rw [hops]
    refine ⟨rfl, rfl, rfl, ?_⟩
    rw [hg]
    rintro (h | h)
    · cases h
    · simp [Reply.failed] at h
  · exfalso
    rcases hfail with h | h | ⟨f2, r2, hg2, h⟩
    · rw [hg] at h
      simp [Reply.failed] at h
    · rw [hg] at h
      cases h
    · rw [hg] at hg2
      cases hg2
      rcases h with h | ⟨d2, hc2, h⟩
      · rw [hc] at h
        simp [Reply.failed] at h
      · rw [hf] at h
        simp [Reply.failed] at h

/-- The first action of a call for a query that is not blank sets the loading
flag; when the actions are applied with nothing in between, the flag is true in
every state before the last one, in particular at each `await`, and false in
the last one. -/
theorem runOps_loading (P : Provider) (s : State) (hq : trim s.location ≠ []) :
    (getWeatherOps P s.location).head? = some (.setLoading true) ∧
    (∀ t ∈ (trace s (getWeatherOps P s.location)).dropLast, t.loading = true) ∧
    suspensions s (getWeatherOps P s.location) ≠ [] ∧
    (∀ rt ∈ suspensions s (getWeatherOps P s.location), rt.2.loading = true) ∧
    (trace s (getWeatherOps P s.location)).getLast? = some (runOps s (getWeatherOps P s.location)) ∧
    (runOps s (getWeatherOps P s.location)).loading = false := by
  rcases getWeatherOps_cases P s.location hq with
    ⟨-, hops⟩ | ⟨first, rest, -, -, hops⟩ | ⟨first, rest, data, -, -, -, hops⟩ |
    ⟨first, rest, data, fdata, -, -, -, hops⟩ <;>
  · rw [hops]
    refine ⟨rfl, ?_, ?_, ?_, rfl, rfl⟩
    · intro t ht
      simp only [catchBlock, finallyBlock, List.cons_append, List.nil_append, trace, applyOp,
        List.dropLast_cons₂, List.dropLast_single, List.mem_cons, List.mem_nil_iff,
        List.not_mem_nil, or_false] at ht
      rcases ht with rfl | rfl | rfl | rfl | rfl | rfl | rfl | rfl | rfl | rfl | rfl | rfl <;> rfl
    · simp [suspensions, catchBlock, finallyBlock]
    · intro rt hrt
      simp only [catchBlock, finallyBlock, List.cons_append, List.nil_append, suspensions,
        applyOp, List.mem_cons, List.mem_nil_iff, List.not_mem_nil, or_false] at hrt
      rcases hrt with rfl | rfl | rfl <;> rfl

/-- When the actions of a call for a query that is not blank are applied with
nothing in between, current weather and forecast are in the end either both
those of the new query or both reset; at each `await` the forecast is the
previous one, and the current weather is the previous one at the geocode and
current-conditions requests and that of the new query at the forecast
request. -/
theorem runOps_replacement (P : Provider) (s : State) (hq : trim s.location ≠ []) :
    ((∃ first rest data fdata, P.geocode (trim s.location) = .ok (first :: rest) ∧
        P.current first.lat first.lon = .ok data ∧
        P.forecast first.lat first.lon = .ok fdata ∧
        (runOps s (getWeatherOps P s.location)).currentWeather = some (buildCurrent first data) ∧
        (runOps s (getWeatherOps P s.location)).forecast = fdata.list) ∨
      (FetchFails P (trim s.location) ∧ (runOps s (getWeatherOps P s.location)).currentWeather = none ∧
        (runOps s (getWeatherOps P s.location)).forecast = .array [])) ∧
    (∀ r t, (r, t) ∈ suspensions s (getWeatherOps P s.location) →
      t.forecast = s.forecast ∧
      ((∀ lat lon, r ≠ .forecast lat lon) → t.currentWeather = s.currentWeather) ∧
      (∀ lat lon, r = .forecast lat lon →
        ∃ first rest data, P.geocode (trim s.location) = .ok (first :: rest) ∧
          P.current first.lat first.lon = .ok data ∧
          t.currentWeather = some (buildCurrent first data))) := by
  rcases getWeatherOps_cases P s.location hq with
    ⟨hg, hops⟩ | ⟨first, rest, hg, hc, hops⟩ | ⟨first, rest, data, hg, hc, hf, hops⟩ |
    ⟨first, rest, data, fdata, hg, hc, hf, hops⟩
  · rw [hops]
    refine ⟨Or.inr ⟨?_, rfl, rfl⟩, ?_⟩
    · rcases hg with h | h
      · exact Or.inl h
      · exact Or.inr (Or.inl h)
    · intro r t hrt
      simp only [catchBlock, finallyBlock, List.cons_append, List.nil_append, suspensions,
        applyOp, List.mem_cons, List.mem_nil_iff, List.not_mem_nil, or_false,
        Prod.mk.injEq] at hrt
      obtain ⟨rfl, rfl⟩ := hrt
      exact ⟨rfl, fun _ => rfl, fun lat lon h => by cases h⟩
  · rw [hops]
    refine ⟨Or.inr ⟨Or.inr (Or.inr ⟨first, rest, hg, Or.inl hc⟩), rfl, rfl⟩, ?_⟩
    intro r t hrt
    simp only [catchBlock, finallyBlock, List.cons_append, List.nil_append, suspensions,
      applyOp, List.mem_cons, List.mem_nil_iff, List.not_mem_nil, or_false,
      Prod.mk.injEq] at hrt
    rcases hrt with ⟨rfl, rfl⟩ | ⟨rfl, rfl⟩ <;>
      exact ⟨rfl, fun _ => rfl, fun lat lon h => by cases h⟩
  · rw [hops]
    refine ⟨Or.inr ⟨Or.inr (Or.inr ⟨first, rest, hg, Or.inr ⟨data, hc, hf⟩⟩), rfl, rfl⟩, ?_⟩
    intro r t hrt
    simp only [catchBlock, finallyBlock, List.cons_append, List.nil_append, suspensions,
      applyOp, List.mem_cons, List.mem_nil_iff, List.not_mem_nil, or_false,
      Prod.mk.injEq] at hrt
    rcases hrt with ⟨rfl, rfl⟩ | ⟨rfl, rfl⟩ | ⟨rfl, rfl⟩
    · exact ⟨rfl, fun _ => rfl, fun lat lon h => by cases h⟩
    · exact ⟨rfl, fun _ => rfl, fun lat lon h => by cases h⟩
    · exact ⟨rfl, fun h => absurd rfl (h _ _), fun _ _ _ => ⟨first, rest, data, hg, hc, rfl⟩⟩
  · rw [hops]
    refine ⟨Or.inl ⟨first, rest, data, fdata, hg, hc, hf, rfl, rfl⟩, ?_⟩
    intro r t hrt
    simp only [catchBlock, finallyBlock, List.cons_append, List.nil_append, suspensions,
      applyOp, List.mem_cons, List.mem_nil_iff, List.not_mem_nil, or_false,
      Prod.mk.injEq] at hrt
    rcases hrt with ⟨rfl, rfl⟩ | ⟨rfl, rfl⟩ | ⟨rfl, rfl⟩
    · exact ⟨rfl, fun _ => rfl, fun lat lon h => by cases h⟩
    · exact ⟨rfl, fun _ => rfl, fun lat lon h => by cases h⟩
    · exact ⟨rfl, fun h => absurd rfl (h _ _), fun _ _ _ => ⟨first, rest, data, hg, hc, rfl⟩⟩

/-- C8, as amended. For a call of `getWeather` with a query that is not blank
whose requests are answered before anything else happens (no other call, no
other handler in between): when the call ends, current weather and forecast
are either both those of the new query (the three requests were answered) or
both reset (the fetch failed), and the other pending calls are as they were.
While a request of the call is pending the forecast is the previous one; the
current weather is the previous one while the geocode and current-conditions
requests are pending, and is that of the new query while the forecast request
is pending. -/
theorem getWeather_replacement (P : Provider) (c : Component)
    (hq : trim c.state.location ≠ []) :
    (∃ c1, answerTimes 0 (requests (getWeatherOps P c.state.location)).length
        (getWeather P c) = some c1 ∧
      c1.pending = c.pending ∧
      ((∃ first rest data fdata, P.geocode (trim c.state.location) = .ok (first :: rest) ∧
          P.current first.lat first.lon = .ok data ∧
          P.forecast first.lat first.lon = .ok fdata ∧
          c1.state.currentWeather = some (buildCurrent first data) ∧
          c1.state.forecast = fdata.list) ∨
        (FetchFails P (trim c.state.location) ∧ c1.state.currentWeather = none ∧
          c1.state.forecast = .array []))) ∧
    (∀ k r, (requests (getWeatherOps P c.state.location))[k]? = some r →
      ∃ ck, answerTimes 0 k (getWeather P c) = some ck ∧
        ck.pending.length = c.pending.length + 1 ∧
        ck.state.forecast = c.state.forecast ∧
        ((∀ lat lon, r ≠ .forecast lat lon) →
          ck.state.currentWeather = c.state.currentWeather) ∧
        (∀ lat lon, r = .forecast lat lon →
          ∃ first rest data, P.geocode (trim c.state.location) = .ok (first :: rest) ∧
            P.current first.lat first.lon = .ok data ∧
            ck.state.currentWeather = some (buildCurrent first data))) := by
  have hrep := runOps_replacement P c.state hq
  refine ⟨⟨_, answerTimes_alone _ c.pending c.state, rfl, hrep.1⟩, ?_⟩
  intro k r hk
  rw [← suspensions_fst _ c.state, List.getElem?_map] at hk
  cases hs : (suspensions c.state (getWeatherOps P c.state.location))[k]? with
  | none =>
    rw [hs] at hk
    cases hk
  | some rt =>
    obtain ⟨r1, t⟩ := rt
    rw [hs] at hk
    simp only [Option.map_some', Option.some.injEq] at hk
    subst hk
    obtain ⟨rest, hrest⟩ := answerTimes_suspension _ c.pending c.state k r1 t hs
    have hmem : (r1, t) ∈ suspensions c.state (getWeatherOps P c.state.location) :=
      List.getElem?_mem hs
    exact ⟨_, hrest, by simp, hrep.2 r1 t hmem⟩

/-- A day card holds a group of the grouped forecast, which is not empty. -/
theorem dayCards_group (s : State) (d : JSString) (g : List ForecastEntry)
    (hdg : (d, g) ∈ dayCards s) :
    g ≠ [] ∧ ∃ forecast m, s.forecast = .array forecast ∧ groupedForecast forecast = .ok m ∧
      (d, g) ∈ m.entries ∧ g = forecast.filter fun x => datePart x.dt_txt = d := by
  unfold dayCards at hdg
  cases hfc : s.forecast with
  | notArray =>
    rw [hfc] at hdg
    simp at hdg
  | array forecast =>
    rw [hfc] at hdg
    simp only at hdg
    cases hm : groupedForecast forecast with
    | error e =>
      rw [hm] at hdg
      simp at hdg
    | ok m =>
      rw [hm] at hdg
      simp only at hdg
      split_ifs at hdg with hlen
      · obtain ⟨-, rfl⟩ := (groupedForecast_ok_iff forecast m).mp hm
        obtain ⟨hne, hg⟩ := (groupsOf_isStablePartition forecast).2.2.1 d g hdg
        exact ⟨hne, forecast, _, rfl, hm, hdg, hg⟩
      · simp at hdg

theorem step_selectedDayData (c c1 : Component) (e : Event) (h : step c e = some c1)
    (hsel : ∀ i, e ≠ .select i) (hclose : e ≠ .close) :
    c1.state.selectedDayData = c.state.selectedDayData := by
  cases e with
  | answer i => exact answer_selectedDayData i c c1 h
  | select i => exact absurd rfl (hsel i)
  | close => exact absurd rfl hclose
  | change value =>
    simp only [step] at h
    split at h
    · cases h
    · cases h
      rfl
  | toggle =>
    simp only [step] at h
    split at h
    · cases h
    · cases h
      rfl
  | enter P =>
    simp only [step] at h
    split at h
    · cases h
    · cases h
      exact getWeather_selectedDayData P c
  | search P =>
    simp only [step] at h
    split at h
    · cases h
    · split_ifs at h
      cases h
      exact getWeather_selectedDayData P c

theorem step_select (c c1 : Component) (index : Nat) (h : step c (.select index) = some c1) :
    ∃ card, (dayCards c.state)[index]? = some card ∧
      c1 = { c with state := selectDay c.state card.2 } := by
  simp only [step] at h
  split at h
  · cases h
  · cases hcard : (dayCards c.state)[index]? with
    | none =>
      rw [hcard] at h
      cases h
    | some card =>
      rw [hcard] at h
      cases h
      exact ⟨card, rfl, rfl⟩

theorem step_close (c c1 : Component) (h : step c .close = some c1) :
    c1 = { c with state := closeDetail c.state } := by
  simp only [step] at h
  split at h
  · cases h
  · split_ifs at h
    cases h
    rfl

theorem step_selection (c c1 : Component) (e : Event) (h : step c e = some c1)
    (hc : c.state.selectedDayData = none ∨
      ∃ g, g ≠ [] ∧ c.state.selectedDayData = some g) :
    c1.state.selectedDayData = none ∨ ∃ g, g ≠ [] ∧ c1.state.selectedDayData = some g := by
  by_cases hsel : ∃ i, e = .select i
  · obtain ⟨i, rfl⟩ := hsel
    obtain ⟨card, hcard, rfl⟩ := step_select c c1 i h
    have hmem : (card.1, card.2) ∈ dayCards c.state := List.getElem?_mem hcard
    exact Or.inr ⟨card.2, (dayCards_group c.state card.1 card.2 hmem).1, rfl⟩
  · by_cases hclose : e = .close
    · subst hclose
      rw [step_close c c1 h]
      exact Or.inl rfl
    · rw [step_selectedDayData c c1 e h (fun i hi => hsel ⟨i, hi⟩) hclose]
      exact hc

theorem exec_selection (events : List Event) :
    ∀ c c1 : Component, exec c events = some c1 →
      (c.state.selectedDayData = none ∨ ∃ g, g ≠ [] ∧ c.state.selectedDayData = some g) →
      c1.state.selectedDayData = none ∨ ∃ g, g ≠ [] ∧ c1.state.selectedDayData = some g := by
  induction events with
  | nil =>
    intro c c1 h hc
    cases h
    exact hc
  | cons e es ih =>
    intro c c1 h hc
    simp only [exec] at h
    cases hs : step c e with
    | none =>
      rw [hs] at h
      cases h
    | some c2 =>
      rw [hs] at h
      exact ih c2 c1 h (step_selection c c2 e hs hc)

/-- C10. Selecting the card of day `d` sets the selected day to the entry list
of group `d` of the grouped forecast and closing sets it to absent, both
leaving all other state as it was; typing, the mode button and every action of
`getWeather` on every path leave the selected day as it was, also when calls
of `getWeather` and other handlers interleave; and in every reachable state the
selected day is absent or a list that is not empty. -/
theorem selectedDayData_frame :
    (∀ s d g, (d, g) ∈ dayCards s →
      selectDay s g = { s with selectedDayData := some g } ∧
      ∃ forecast m, s.forecast = .array forecast ∧ groupedForecast forecast = .ok m ∧
        (d, g) ∈ m.entries ∧ g = forecast.filter fun x => datePart x.dt_txt = d) ∧
    (∀ s, closeDetail s = { s with selectedDayData := none }) ∧
    (∀ s value, (setLocation s value).selectedDayData = s.selectedDayData) ∧
    (∀ s, (toggleDarkMode s).selectedDayData = s.selectedDayData) ∧
    (∀ P s, (∀ t ∈ trace s (getWeatherOps P s.location),
        t.selectedDayData = s.selectedDayData) ∧
      (runOps s (getWeatherOps P s.location)).selectedDayData = s.selectedDayData) ∧
    (∀ s, Reachable s →
      s.selectedDayData = none ∨ ∃ g, g ≠ [] ∧ s.selectedDayData = some g) ∧
    (∀ c e c1, step c e = some c1 → (∀ i, e ≠ .select i) → e ≠ .close →
      c1.state.selectedDayData = c.state.selectedDayData) ∧
    (∀ c index c1, step c (.select index) = some c1 →
      ∃ card, (dayCards c.state)[index]? = some card ∧
        c1 = { c with state := selectDay c.state card.2 }) ∧
    (∀ c c1, step c .close = some c1 → c1 = { c with state := closeDetail c.state }) ∧
    (∀ events c, exec initialComponent events = some c →
      c.state.selectedDayData = none ∨ ∃ g, g ≠ [] ∧ c.state.selectedDayData = some g) := by
  refine ⟨?_, fun _ => rfl, fun _ _ => rfl, fun _ => rfl, ?_, ?_,
    fun c e c1 => step_selectedDayData c c1 e, fun c index c1 => step_select c c1 index,
    step_close, ?_⟩
  · intro s d g hdg
    exact ⟨rfl, (dayCards_group s d g hdg).2⟩
  · intro P s
    exact ⟨trace_selectedDayData _ s, runOps_selectedDayData _ s⟩
  · intro s hs
    induction hs with
    | init => exact Or.inl rfl
    | setLocation s value _ ih => exact ih
    | toggleDarkMode s _ ih => exact ih
    | write s P location o _ _ ih =>
      rw [applyOp_selectedDayData]
      exact ih
    | selectDay s d g _ hdg _ =>
      exact Or.inr ⟨g, (dayCards_group s d g hdg).1, rfl⟩
    | closeDetail s _ _ => exact Or.inl rfl
  · intro events c h
    exact exec_selection events initialComponent c h (Or.inl rfl)

/-! ## Runs of the sample providers -/

/-- The state after typing "Paris", a fetch that is answered, and a click on the
card of the first day is reachable, with the two entries of that day selected. -/
theorem reachable_selected_day :
    Reachable (selectDay (runOps (typed "Paris") (getWeatherOps sampleProvider (utf16 "Paris")))
      [sampleEntry "2024-01-15 21:00:00", sampleEntry "2024-01-15 18:00:00"]) := by
  have h0 : Reachable (typed "Paris") := Reachable.setLocation _ _ Reachable.init
  have hrun : ∀ (ops pre : List Op),
      pre ++ ops = getWeatherOps sampleProvider (utf16 "Paris") →
      ∀ s, Reachable s → Reachable (runOps s ops) := by
    intro ops
    induction ops with
    | nil =>
      intro _ _ s hs
      exact hs
    | cons o ops ih =>
      intro pre hpre s hs
      have hmem : o ∈ getWeatherOps sampleProvider (utf16 "Paris") := by
        rw [← hpre]
        simp
      have hstep := Reachable.write s sampleProvider (utf16 "Paris") o hs hmem
      exact ih (pre ++ [o]) (by simpa using hpre) _ hstep
  have h1 : Reachable (runOps (typed "Paris") (getWeatherOps sampleProvider (utf16 "Paris"))) :=
    hrun _ [] rfl _ h0
  exact Reachable.selectDay _ (utf16 "2024-01-15") _ h1 (by decide)

/-- The same selection in the state machine: typing, Enter, three answers and a
click on the first day card. -/
theorem exec_selected_day :
    (exec initialComponent
      [.change (utf16 "Paris"), .enter sampleProvider, .answer 0, .answer 0, .answer 0,
        .select 0]).map (fun c => c.state.selectedDayData)
      = some (some [sampleEntry "2024-01-15 21:00:00", sampleEntry "2024-01-15 18:00:00"]) := by
  rfl

/-- Witness of C4: three spaces typed. -/
theorem getWeather_blank_location_witness :
    (∀ c ∈ (typed "   ").location, isWhiteSpace c = true) ∧
    requests (getWeatherOps sampleProvider (typed "   ").location) = [] ∧
    suspensions (typed "   ") (getWeatherOps sampleProvider (typed "   ").location) = [] ∧
    runOps (typed "   ") (getWeatherOps sampleProvider (typed "   ").location)
      = { typed "   " with error := utf16 "Please enter a location" } ∧
    (runOps (typed "   ") (getWeatherOps sampleProvider (typed "   ").location)).loading
      = (typed "   ").loading ∧
    (runOps (typed "   ") (getWeatherOps sampleProvider (typed "   ").location)).currentWeather
      = (typed "   ").currentWeather ∧
    (runOps (typed "   ") (getWeatherOps sampleProvider (typed "   ").location)).forecast
      = (typed "   ").forecast ∧
    (∀ pending, getWeather sampleProvider ⟨typed "   ", pending⟩
      = ⟨{ typed "   " with error := utf16 "Please enter a location" }, pending⟩) :=
  ⟨by decide, getWeather_blank_location sampleProvider (typed "   ") (by decide)⟩

/-- C5, the code at the failing input. The three requests of the call for
"Paris" are answered, but the call is overlapped by a call for "Qwzxy123" that
fails while the forecast request for Paris is pending: when the call for Paris
ends, the current weather is `null`, not that of Paris, next to the forecast
of Paris and an empty error. -/
theorem getWeather_overlap_loses_current :
    sampleProvider.geocode (utf16 "Paris") = .ok [paris] ∧
    sampleProvider.current paris.lat paris.lon = .ok parisConditions ∧
    sampleProvider.forecast paris.lat paris.lon = .ok ⟨.array sampleForecast⟩ ∧
    exec initialComponent overlapEvents = some
      ⟨{ location := utf16 "Qwzxy123", currentWeather := none,
         forecast := .array sampleForecast, error := [], loading := false,
         darkMode := false, selectedDayData := none }, []⟩ :=
  ⟨rfl, rfl, rfl, rfl⟩

/-- C6, the code at the failing input. The forecast request for "Paris" is
answered with a body without `list`: no read throws, the call ends with the
error cleared, the current weather of Paris and `undefined` as forecast, not
with the failure message, no current weather and an empty forecast; the next
render throws at `forecast.reduce`, and no handler is left. -/
theorem getWeather_unvalidated_forecast :
    noListProvider.forecast paris.lat paris.lon = .ok ⟨.notArray⟩ ∧
    exec initialComponent noListEvents = some
      ⟨{ location := utf16 "Paris",
         currentWeather := some (buildCurrent paris parisConditions),
         forecast := .notArray, error := [], loading := false,
         darkMode := false, selectedDayData := none }, []⟩ ∧
    render { location := utf16 "Paris",
             currentWeather := some (buildCurrent paris parisConditions),
             forecast := .notArray, error := [], loading := false,
             darkMode := false, selectedDayData := none } = .error .typeError ∧
    exec initialComponent (noListEvents ++ [.change (utf16 "Paris, FR")]) = none :=
  ⟨rfl, rfl, rfl, rfl⟩

/-- C7, the code at the failing input. A second call started with Enter while
the first is pending ends first, and its `finally` sets the loading flag to
false: the geocode request of the call for "Paris" is still pending, and the
flag is false. The search button, disabled while loading, cannot start that
second call. -/
theorem getWeather_overlap_clears_loading :
    (exec initialComponent secondCallEndsFirstEvents).map (fun c => c.state.loading)
      = some false ∧
    (exec initialComponent secondCallEndsFirstEvents).map (fun c => c.pending)
      = some [(getWeatherOps sampleProvider (utf16 "Paris")).drop 3] ∧
    (getWeatherOps sampleProvider (utf16 "Paris")).take 3
      = [.setLoading true, .toast (.info (utf16 "Fetching weather data...")),
          .await (.geocode (utf16 "Paris"))] ∧
    secondCallEndsFirstEvents
      = secondQueryEvents ++ [.enter sampleProvider, .answer 0] ∧
    exec initialComponent (secondQueryEvents ++ [.search sampleProvider]) = none :=
  ⟨rfl, rfl, rfl, rfl, rfl⟩

/-- Witness of C8 as amended: "Paris" typed, forecast endpoint down, no other
call pending; the call ends after three answers with both values reset. -/
theorem getWeather_replacement_witness :
    trim (typed "Paris").location ≠ [] ∧
    (requests (getWeatherOps noForecastProvider (typed "Paris").location)).length = 3 ∧
    answerTimes 0 3 (getWeather noForecastProvider ⟨typed "Paris", []⟩)
      = some ⟨{ typed "Paris" with
          error := utf16 "Location not found or error fetching data" }, []⟩ ∧
    ∃ c1, answerTimes 0
        (requests (getWeatherOps noForecastProvider (typed "Paris").location)).length
        (getWeather noForecastProvider ⟨typed "Paris", []⟩) = some c1 ∧
      c1.pending = [] ∧
      ((∃ first rest data fdata,
          noForecastProvider.geocode (trim (typed "Paris").location) = .ok (first :: rest) ∧
          noForecastProvider.current first.lat first.lon = .ok data ∧
          noForecastProvider.forecast first.lat first.lon = .ok fdata ∧
          c1.state.currentWeather = some (buildCurrent first data) ∧
          c1.state.forecast = fdata.list) ∨
        (FetchFails noForecastProvider (trim (typed "Paris").location) ∧
          c1.state.currentWeather = none ∧ c1.state.forecast = .array [])) :=
  ⟨by decide, rfl, rfl,
    (getWeather_replacement noForecastProvider ⟨typed "Paris", []⟩ (by decide)).1⟩

/-- Counterexample to C8 as stated: while the forecast request for "Paris" is
pending, the component renders the current weather of Paris together with the
old, empty forecast, not the forecast of Paris. -/
theorem getWeather_current_before_forecast :
    (exec initialComponent parisPendingEvents).map (fun c => c.state.currentWeather)
      = some (some (buildCurrent paris parisConditions)) ∧
    (exec initialComponent parisPendingEvents).map (fun c => c.state.forecast)
      = some (.array []) ∧
    (exec initialComponent parisPendingEvents).map (fun c => c.pending)
      = some [(getWeatherOps sampleProvider (utf16 "Paris")).drop 6] ∧
    (exec initialComponent parisPendingEvents).map (fun c => render c.state)
      = some (.ok ()) ∧
    (getWeatherOps sampleProvider (utf16 "Paris")).get? 5
      = some (.await (.forecast paris.lat paris.lon)) ∧
    sampleProvider.forecast paris.lat paris.lon = .ok ⟨.array sampleForecast⟩ ∧
    ForecastValue.array sampleForecast ≠ .array [] :=
  ⟨rfl, rfl, rfl, rfl, rfl, rfl, by decide⟩

end WeatherCard
